import Mathlib

/-!
Verification of the MSLG `.lg` parser (`LGObject.toLG` and its helpers).

The definitions below are a shallow embedding of `packages/MSLG/lib/parser/LGObject.js`
(the file holding `LGObject.toLG` and `removeTemplateLinkReferences`).  JavaScript
strings are modelled as Lean `String`s (operated on through their `List Char` data),
mutation is modelled by explicit state passing, thrown exceptions by `Except`, and
object aliasing (`cLGTemplate` / `conditionalResponseItem` pointing into the result
lists) by index write-back.  Files of the repository that the parser requires but
that are not part of the source tree (enums, data-model constructors, validators,
helpers) are modelled from the specification; each such definition carries a doc
comment starting with `Modelled from the spec:`.
-/

set_option maxHeartbeats 1000000

namespace MSLG

/-- Characters removed by JavaScript `String.prototype.trim` (the whitespace
characters that can actually occur in `.lg` text). -/
def isJsWS (c : Char) : Bool := c = ' ' || c = '\t' || c = '\n' || c = '\r'

/-- Model of JS `trim` on character lists: drop whitespace from both ends. -/
def jsTrimL (cs : List Char) : List Char :=
  ((cs.dropWhile isJsWS).reverse.dropWhile isJsWS).reverse

/-- Model of JS `String.prototype.trim`. -/
def jsTrim (s : String) : String := String.mk (jsTrimL s.data)

/-- Model of JS `chunk.split(/\r\n|\r|\n/g)`: split at `\r\n`, `\r` or `\n`. -/
def splitLinesL : List Char → List Char → List (List Char)
  | '\r' :: '\n' :: rest, acc => acc.reverse :: splitLinesL rest []
  | '\r' :: rest, acc => acc.reverse :: splitLinesL rest []
  | '\n' :: rest, acc => acc.reverse :: splitLinesL rest []
  | c :: rest, acc => splitLinesL rest (c :: acc)
  | [], acc => [acc.reverse]

/-- String-level wrapper for `splitLinesL`. -/
def splitLines (s : String) : List String := (splitLinesL s.data []).map String.mk

/-- Model of JS `line.substring(line.indexOf(' ') + 1)`: everything after the
first space; the whole string when there is no space (`indexOf` returns `-1`). -/
def afterFirstSpaceL (cs : List Char) : List Char :=
  if cs.dropWhile (fun c => !(c = ' ')) = [] then cs
  else (cs.dropWhile (fun c => !(c = ' '))).tail

/-- Index of the first occurrence of `pat` in a character list (JS `indexOf`),
or `none` when absent. -/
def findSubIdxL (pat : List Char) : List Char → Option Nat
  | [] => if pat.isPrefixOf ([] : List Char) then some 0 else none
  | c :: t =>
      if pat.isPrefixOf (c :: t) then some 0
      else (findSubIdxL pat t).map (· + 1)

/-- Model of JS `String.prototype.replace` with a string pattern: replace the
first occurrence only. -/
def jsReplaceFirstL (cs pat rep : List Char) : List Char :=
  match findSubIdxL pat cs with
  | none => cs
  | some i => cs.take i ++ rep ++ cs.drop (i + pat.length)

/-- String-level wrapper for `jsReplaceFirstL`. -/
def jsReplaceFirst (s pat rep : String) : String :=
  String.mk (jsReplaceFirstL s.data pat.data rep.data)

/-- Model of JS `s.indexOf(pat) === 0`. -/
def jsStartsWith (s pat : String) : Bool := pat.data.isPrefixOf s.data

/-- Model of JS `String.prototype.split` with a one-character string separator
(the source only splits on `':'` and `' '`): split at every occurrence. -/
def splitOnCharAux (sep : Char) : List Char → List Char → List (List Char)
  | [], acc => [acc.reverse]
  | c :: t, acc =>
      if c = sep then acc.reverse :: splitOnCharAux sep t []
      else splitOnCharAux sep t (c :: acc)

/-- String-level wrapper for `splitOnCharAux`. -/
def jsSplitChar (sep : Char) (s : String) : List String :=
  (splitOnCharAux sep s.data []).map String.mk

/-- Model of JS `item.split(/\]\((.*?)\)/g)` (split with a capturing group):
the result alternates the text between matches with the captured link targets.
A match is a literal `](` followed (lazily) by the first `)` after it.  The
`Nat` argument is fuel; `splitTemplateRefL` supplies the list length, which is
ample because every step consumes at least one character. -/
def splitTemplateRefAux : Nat → List Char → List Char → List (List Char)
  | _, [], acc => [acc.reverse]
  | 0, cs, acc => [acc.reverse ++ cs]
  | fuel + 1, c :: t, acc =>
      if c = ']' then
        match t with
        | [] => splitTemplateRefAux fuel t (c :: acc)
        | d :: t2 =>
            if d = '(' then
              match t2.dropWhile (fun e => !(e = ')')) with
              | ')' :: rest2 =>
                  acc.reverse :: (t2.takeWhile (fun e => !(e = ')'))) ::
                    splitTemplateRefAux fuel rest2 []
              | _ => [acc.reverse ++ ']' :: '(' :: t2]
            else splitTemplateRefAux fuel t (c :: acc)
      else splitTemplateRefAux fuel t (c :: acc)

/-- `item.split(/\]\((.*?)\)/g)` on a character list. -/
def splitTemplateRefL (cs : List Char) : List (List Char) :=
  splitTemplateRefAux cs.length cs []

/-- The join loop of `removeTemplateLinkReferences`:
`for(i = 0; i < parts.length - 1; i += 2) ret += parts[i] + ']'`. -/
def joinRefParts : List (List Char) → List Char
  | p :: _ :: rest => p ++ ']' :: joinRefParts rest
  | _ => []

/-- Embedding of `removeTemplateLinkReferences` (LGObject.js, lines 208-216):
split on the `](...)` pattern; a line with no match is returned unchanged,
otherwise the pieces before each match are joined, each followed by `]` (the
piece after the last match is not appended by the source's loop). -/
def removeTemplateLinkReferencesL (cs : List Char) : List Char :=
  let parts := splitTemplateRefL cs
  if parts.length = 1 then cs else joinRefParts parts

/-- String-level wrapper for `removeTemplateLinkReferencesL`. -/
def removeTemplateLinkReferences (item : String) : String :=
  String.mk (removeTemplateLinkReferencesL item.data)

/-- Modelled from the spec: `helpers.parseEntity` (utils/helpers.js is not under
src/).  The spec says each template line is scanned for embedded entity mentions
using the fixed entity-reference (interpolation) syntax; we model that syntax as
brace-delimited mentions, collecting the delimited names in order.  The second
argument holds the mention being read, if any. -/
def parseEntityAux : List Char → Option (List Char) → List (List Char)
  | [], _ => []
  | '{' :: t, _ => parseEntityAux t (some [])
  | '}' :: t, some cap => cap.reverse :: parseEntityAux t none
  | '}' :: t, none => parseEntityAux t none
  | c :: t, some cap => parseEntityAux t (some (c :: cap))
  | _ :: t, none => parseEntityAux t none

/-- Modelled from the spec: the entity names mentioned in a template line. -/
def parseEntity (s : String) : List String := (parseEntityAux s.data none).map String.mk

/-- Modelled from the spec: balance check for interpolation delimiters, used by
the variation validator. -/
def balancedBracesAux : List Char → Nat → Bool
  | [], 0 => true
  | [], _ + 1 => false
  | '{' :: t, d => balancedBracesAux t (d + 1)
  | '}' :: _, 0 => false
  | '}' :: t, d + 1 => balancedBracesAux t d
  | _ :: t, d => balancedBracesAux t d

/-- Modelled from the spec: `validators.validateVariationItem` (utils/validation.js
is not under src/).  Spec 4.4: syntax-checks variation text — balanced
interpolation delimiters and non-empty after trim — returning a Bool. -/
def validateVariationItem (s : String) : Bool :=
  !(jsTrim s == "") && balancedBracesAux s.data 0

/-- Modelled from the spec: enums/errorCodes.js is not under src/; spec section 7
enumerates the structured error codes thrown by the parser. -/
inductive ErrCode
  | NO_LIST_DECORATION_ON_VARIATION
  | INVALID_TEMPLATE
  | INVALID_LG_FILE_REF
  | INVALID_ENTITY_DEFINITION
  | INVALID_INPUT
  | INVALID_CONDITION
deriving Repr, DecidableEq

/-- A thrown JavaScript value: either a structured `{errCode, text}` exception
(the `Exception` class and the object literal thrown for list decoration), or an
unstructured runtime `TypeError` (reading a property of `null`). -/
inductive JsError
  | structured (errCode : ErrCode) (text : String)
  | typeError (text : String)
deriving Repr, DecidableEq

/-- Modelled from the spec: enums/parserconsts.js is not under src/.  Spec
section 6 lists the literal, case-sensitive markers: `#` starts a template
header chunk. -/
def INTENT : String := "#"

/-- Modelled from the spec: `[` leads a file-reference chunk. -/
def FILEREF : String := "["

/-- Modelled from the spec: `$` leads an entity-definition chunk. -/
def ENTITY : String := "$"

/-- Modelled from the spec: the conditional-branch marker (spec section 6 shows
`IF:` as the concrete CONDITION marker). -/
def CONDITION : String := "IF:"

/-- Modelled from the spec: the default-branch marker (spec section 6 shows
`ELSE:` as the concrete DEFAULT marker). -/
def DEFAULT : String := "ELSE:"

/-- Modelled from the spec: the normalized else marker the DEFAULT text is
rewritten to by `item.replace(parserConsts.DEFAULT, parserConsts.ELSE)`. -/
def ELSE : String := "ELSE:"

/-- Modelled from the spec: `validators.validateCondition` (utils/validation.js
is not under src/).  Spec 4.4: with `requiresExpression` the condition must
carry an expression (modelled: non-empty normalized text); without it (the
else/default branch) the text must not carry a residual expression beyond the
else marker (modelled: it must equal the ELSE marker).  Throws InvalidCondition
otherwise. -/
def validateCondition (condition : String) (requiresExpression : Bool) :
    Except JsError Unit :=
  if requiresExpression then
    if condition == "" then
      .error (.structured .INVALID_CONDITION ("Invalid condition: " ++ condition))
    else .ok ()
  else
    if condition == ELSE then .ok ()
    else .error (.structured .INVALID_CONDITION ("Invalid condition: " ++ condition))

/-- An entity of the parse result.  Modelled from the spec where the LGEntity.js
constructor is concerned: `name`, an `entityType`, and the ordered attribute
pairs (an attribute value absent in the source tokens is JS `undefined`,
modelled as `none`). -/
structure LGEntity where
  name : String
  entityType : String
  attributes : List (String × Option String)
deriving Repr, DecidableEq

/-- Modelled from the spec: `LGEntity.getEntityType` (LGEntity.js is not under
src/) maps a declared type name to the stored enumerated type; the spec only
says the type is builtin-or-custom, so the model keeps the declared name. -/
def LGEntity.getEntityType (t : String) : String := t

/-- Modelled from the spec: auto-detected entities enter the parse result with
an unresolved/default type (spec 4.2 step 3). -/
def defaultEntityType : String := "unresolved"

/-- Modelled from the spec: `new LGEntity(item)` for an auto-detected mention. -/
def mkAutoEntity (n : String) : LGEntity := ⟨n, defaultEntityType, []⟩

/-- A conditional response block: the normalized condition text and its
variation list. -/
structure LGConditionalResponse where
  condition : String
  variations : List String
deriving Repr, DecidableEq

/-- Modelled from the spec: the LGConditionalResponse.js constructor — a new
block holds the condition and an empty variation list (`new
LGConditionalResponseTemplate(condition)` and `(condition, [])` coincide). -/
def mkConditionalResponse (c : String) : LGConditionalResponse := ⟨c, []⟩

/-- A template: name, flat variations, conditional response blocks. -/
structure LGTemplate where
  name : String
  variations : List String
  conditionalResponses : List LGConditionalResponse
deriving Repr, DecidableEq

/-- Modelled from the spec: the LGTemplate.js constructor — `new
LGTemplate(templateName, null, null)` starts with empty lists. -/
def mkLGTemplate (n : String) : LGTemplate := ⟨n, [], []⟩

/-- The `LGObject` class of LGObject.js: template and entity collections. -/
structure LGObject where
  LGTemplates : List LGTemplate
  entities : List LGEntity
deriving Repr, DecidableEq

/-- Modelled from the spec: the LGParsedObj.js constructor (not under src/) —
the object returned by `toLG`, with an initially unset `LGObject` and an empty
`additionalFilesToParse` list. -/
structure LGParsedObj where
  LGObject : Option LGObject
  additionalFilesToParse : List String
deriving Repr, DecidableEq

/-- `new LGParsedObj()`. -/
def emptyParsedObj : LGParsedObj := ⟨none, []⟩

/-- The JS variable `conditionalResponseItem`: `null`, a reference into
`cLGTemplate.conditionalResponses` (index `i`), or a fresh block not yet pushed. -/
inductive CondItem
  | nullItem
  | aliasAt (i : Nat)
  | fresh (b : LGConditionalResponse)
deriving Repr, DecidableEq

/-- Update the element at an index of a list in place (models mutation through
an aliased reference). -/
def updateAt {α : Type} : List α → Nat → (α → α) → List α
  | [], _, _ => []
  | b :: t, 0, f => f b :: t
  | b :: t, i + 1, f => b :: updateAt t i f

/-- `conditionalResponseItem.variations` for a non-null item. -/
def condItemVariations (t : LGTemplate) : CondItem → List String
  | .aliasAt i => ((t.conditionalResponses.get? i).getD (mkConditionalResponse "")).variations
  | .fresh b => b.variations
  | .nullItem => []

/-- `conditionalResponseItem.variations.push(v)`: mutation through the alias
lands in the template's list, mutation of a fresh block stays local. -/
def pushCondVariation (t : LGTemplate) (ci : CondItem) (v : String) :
    LGTemplate × CondItem :=
  match ci with
  | .aliasAt i =>
      (⟨t.name, t.variations,
        updateAt t.conditionalResponses i (fun b => ⟨b.condition, b.variations ++ [v]⟩)⟩, ci)
  | .fresh b => (t, .fresh ⟨b.condition, b.variations ++ [v]⟩)
  | .nullItem => (t, ci)

/-- `cLGTemplate.conditionalResponses.push(conditionalResponseItem)`: a fresh
block is appended and the item now aliases the appended entry. -/
def flushCond (t : LGTemplate) : CondItem → LGTemplate × CondItem
  | .fresh b =>
      (⟨t.name, t.variations, t.conditionalResponses ++ [b]⟩,
       .aliasAt t.conditionalResponses.length)
  | ci => (t, ci)

/-- The mutable state of the template-body loop of `LGObject.toLG` (lines
79-161): the current template, the entity collection of the parse result, the
`conditionalResponseItem` variable, and the `inConditionalResponses` /
`pushAtEnd` flags. -/
structure BodyState where
  tmpl : LGTemplate
  entities : List LGEntity
  condItem : CondItem
  inConditionalResponses : Bool
  pushAtEnd : Bool
deriving Repr, DecidableEq

/-- Entity auto-detection (LGObject.js lines 84-90): every mention not already
known by name is appended to the entity collection. -/
def addDetectedEntities (entities : List LGEntity) (names : List String) :
    List LGEntity :=
  names.foldl
    (fun acc e =>
      if (acc.filter (fun eItem => eItem.name == e)).length = 0 then
        acc ++ [mkAutoEntity e]
      else acc)
    entities

/-- Embedding of one iteration of the body loop of `LGObject.toLG` (lines
80-161): strip template-link references, auto-detect entities, require a list
decoration, then dispatch the payload to the condition / default / variation
logic. -/
def processBodyLine (st : BodyState) (rawItem : String) : Except JsError BodyState :=
  let item := removeTemplateLinkReferences rawItem
  let entities := addDetectedEntities st.entities (parseEntity item)
  if !(jsStartsWith item "-") && !(jsStartsWith item "*") && !(jsStartsWith item "+") then
    .error (.structured .NO_LIST_DECORATION_ON_VARIATION
      ("Template item: \"" ++ item ++
        "\" does not have list decoration. Prefix line with \"-\" or \"+\" or \"*\""))
  else
    let item := jsTrim (String.mk (item.data.drop 1))
    if jsStartsWith (jsTrim item) CONDITION then
      let flushed :=
        if st.inConditionalResponses && st.pushAtEnd then flushCond st.tmpl st.condItem
        else (st.tmpl, st.condItem)
      let t1 := flushed.1
      let condition := jsTrim (jsReplaceFirst item CONDITION "")
      if t1.conditionalResponses.length > 0 then
        match t1.conditionalResponses.findIdx? (fun b => b.condition == condition) with
        | some i =>
            .ok ⟨t1, entities, .aliasAt i, true, false⟩
        | none =>
            match validateCondition condition true with
            | .error e => .error e
            | .ok _ =>
                .ok ⟨t1, entities, .fresh (mkConditionalResponse condition), true, true⟩
      else
        match validateCondition condition true with
        | .error e => .error e
        | .ok _ =>
            .ok ⟨t1, entities, .fresh (mkConditionalResponse condition), true, true⟩
    else if jsStartsWith (jsTrim item) DEFAULT then
      let flushed :=
        if st.inConditionalResponses && st.pushAtEnd then flushCond st.tmpl st.condItem
        else (st.tmpl, st.condItem)
      let t1 := flushed.1
      let condition := jsTrim (jsReplaceFirst item DEFAULT ELSE)
      if t1.conditionalResponses.length > 0 then
        match t1.conditionalResponses.findIdx? (fun b => b.condition == condition) with
        | some i =>
            .ok ⟨t1, entities, .aliasAt i, true, false⟩
        | none =>
            match validateCondition condition false with
            | .error e => .error e
            | .ok _ =>
                .ok ⟨t1, entities, .fresh (mkConditionalResponse condition), true, true⟩
      else
        match validateCondition condition false with
        | .error e => .error e
        | .ok _ =>
            .ok ⟨t1, entities, .fresh (mkConditionalResponse condition), true, true⟩
    else
      if st.inConditionalResponses then
        if validateVariationItem item then
          match st.condItem with
          | .nullItem =>
              .error (.typeError "Cannot read property variations of null")
          | ci =>
              if !((condItemVariations st.tmpl ci).contains item) then
                let pushed := pushCondVariation st.tmpl ci item
                .ok ⟨pushed.1, entities, pushed.2, st.inConditionalResponses, st.pushAtEnd⟩
              else .ok ⟨st.tmpl, entities, st.condItem, st.inConditionalResponses, st.pushAtEnd⟩
        else .ok ⟨st.tmpl, entities, st.condItem, st.inConditionalResponses, st.pushAtEnd⟩
      else
        if validateVariationItem item && !(st.tmpl.variations.contains item) then
          .ok ⟨⟨st.tmpl.name, st.tmpl.variations ++ [item], st.tmpl.conditionalResponses⟩,
            entities, st.condItem, st.inConditionalResponses, st.pushAtEnd⟩
        else .ok ⟨st.tmpl, entities, st.condItem, st.inConditionalResponses, st.pushAtEnd⟩

/-- The body loop over the remaining lines of a template chunk; a thrown
exception aborts the remaining lines. -/
def foldBody : BodyState → List String → Except JsError BodyState
  | st, [] => .ok st
  | st, l :: rest =>
      match processBodyLine st l with
      | .error e => .error e
      | .ok st2 => foldBody st2 rest

/-- Lines 162-163 of `LGObject.toLG`: after the last line, a pending
newly-created conditional block is flushed into the template. -/
def finishBody (st : BodyState) : LGTemplate :=
  if st.inConditionalResponses && st.pushAtEnd then (flushCond st.tmpl st.condItem).1
  else st.tmpl

/-- The mutable parse state threaded through the chunk loop: the collections of
`retParserObj.LGObject` plus `retParserObj.additionalFilesToParse`. -/
structure ParseState where
  LGTemplates : List LGTemplate
  entities : List LGEntity
  additionalFilesToParse : List String
deriving Repr, DecidableEq

/-- Embedding of the template-chunk branch of `LGObject.toLG` (lines 55-168):
extract the template name, look up or create the template (merge mode reuses
the existing entry by reference, modelled by the index in `aliasIdx`), run the
body loop, flush a pending conditional block, commit the template when
`pushAtEnd` survived, and reject templates with no content. -/
def processIntentChunk (st : ParseState) (lines : List String) :
    Except JsError ParseState :=
  let line0 := lines.headD ""
  let templateName := String.mk (afterFirstSpaceL line0.data)
  let bodyLines := lines.tail
  let lookup :=
    if st.LGTemplates.length > 0 then
      match st.LGTemplates.findIdx? (fun t => t.name == templateName) with
      | some i =>
          (false, some i, some ((st.LGTemplates.get? i).getD (mkLGTemplate templateName)))
      | none => (true, (none : Option Nat), some (mkLGTemplate templateName))
    else (true, (none : Option Nat), (none : Option LGTemplate))
  let pushAtEnd0 := lookup.1
  let start :=
    match lookup.2.2 with
    | none => ((none : Option Nat), mkLGTemplate templateName)
    | some t => if t.name == "" then (none, mkLGTemplate templateName) else (lookup.2.1, t)
  let aliasIdx := start.1
  match foldBody ⟨start.2, st.entities, .nullItem, false, pushAtEnd0⟩ bodyLines with
  | .error e => .error e
  | .ok stFin =>
      let tmplF := finishBody stFin
      let base :=
        match aliasIdx with
        | some i => st.LGTemplates.set i tmplF
        | none => st.LGTemplates
      let newTemplates :=
        if !(tmplF.name == "") && stFin.pushAtEnd then base ++ [tmplF] else base
      if tmplF.variations.length = 0 && tmplF.conditionalResponses.length = 0 then
        .error (.structured .INVALID_TEMPLATE
          ("Template \"" ++ tmplF.name ++
            "\" does not have any variations or conditional response definition"))
      else .ok ⟨newTemplates, stFin.entities, st.additionalFilesToParse⟩

/-- The interior of the first match of `/\(.*?\)/` in a line: the text between
the first `(` and the first `)` after it, or `none` when the regex does not
match (JS `match` returns `null`). -/
def firstParenMatchL (cs : List Char) : Option (List Char) :=
  match cs.dropWhile (fun c => !(c = '(')) with
  | '(' :: t =>
      match t.dropWhile (fun c => !(c = ')')) with
      | ')' :: _ => some (t.takeWhile (fun c => !(c = ')')))
      | _ => none
  | _ => none

/-- Embedding of the file-reference branch of `LGObject.toLG` (lines 169-176):
when the regex finds no parenthesized group, the source dereferences the `null`
match result (`linkValueList[0]`) and crashes with a TypeError; an empty link
value is a structured INVALID_LG_FILE_REF; otherwise the value is appended to
`additionalFilesToParse`. -/
def processFileRefChunk (st : ParseState) (lines : List String) :
    Except JsError ParseState :=
  let line0 := lines.headD ""
  match firstParenMatchL (jsTrim line0).data with
  | none => .error (.typeError "Cannot read property 0 of null")
  | some interior =>
      let linkValue := String.mk interior
      if linkValue == "" then
        .error (.structured .INVALID_LG_FILE_REF
          ("[ERROR]: Invalid LU File Ref: " ++ line0))
      else .ok ⟨st.LGTemplates, st.entities, st.additionalFilesToParse ++ [linkValue]⟩

/-- The attribute loop of the entity branch (lines 185-189):
`for(i = 1; i < tokens.length; i += 3) push {key: tokens[i], value: tokens[i+2]}`
applied to the tokens after the type; an out-of-range value is JS `undefined`. -/
def attrLoop : List String → List (String × Option String)
  | [] => []
  | [k] => [(k, none)]
  | [k, _] => [(k, none)]
  | k :: _ :: v :: rest => (k, some v) :: attrLoop rest

/-- Embedding of the entity-definition branch of `LGObject.toLG` (lines
177-197): split the header at `:`, require exactly two parts, parse type and
attribute tokens; a re-declared name only has its type overwritten, otherwise
the new entity is appended. -/
def processEntityChunk (st : ParseState) (lines : List String) :
    Except JsError ParseState :=
  let line0 := lines.headD ""
  let entityDef := jsSplitChar ':' (jsReplaceFirst line0 ENTITY "")
  if !(entityDef.length = 2) then
    .error (.structured .INVALID_ENTITY_DEFINITION
      ("Invalid entity definition for \"" ++ line0 ++ "\""))
  else
    let entityName := jsTrim (entityDef.headD "")
    let entityTypeAndAttributes := jsSplitChar ' ' (jsTrim (entityDef.getD 1 ""))
    let entityType := jsTrim (entityTypeAndAttributes.headD "")
    let entityAttributes :=
      if !(entityTypeAndAttributes.length = 1) then attrLoop (entityTypeAndAttributes.drop 1)
      else []
    let newEntity : LGEntity :=
      ⟨entityName, LGEntity.getEntityType entityType, entityAttributes⟩
    match st.entities.findIdx? (fun e => e.name == entityName) with
    | some i =>
        .ok ⟨st.LGTemplates,
          updateAt st.entities i
            (fun e => ⟨e.name, LGEntity.getEntityType entityType, e.attributes⟩),
          st.additionalFilesToParse⟩
    | none => .ok ⟨st.LGTemplates, st.entities ++ [newEntity], st.additionalFilesToParse⟩

/-- Embedding of one iteration of the chunk loop of `LGObject.toLG` (lines
50-202): trim the chunk, split into lines, and classify by the first-line
prefix; an unrecognized chunk throws INVALID_INPUT echoing the chunk. -/
def processChunk (st : ParseState) (chunk0 : String) : Except JsError ParseState :=
  let chunk := jsTrim chunk0
  let chunkSplitByLine := splitLines chunk
  if jsStartsWith chunk INTENT then processIntentChunk st chunkSplitByLine
  else if jsStartsWith chunk FILEREF then processFileRefChunk st chunkSplitByLine
  else if jsStartsWith chunk ENTITY then processEntityChunk st chunkSplitByLine
  else
    .error (.structured .INVALID_INPUT
      ("Unidentified template definition. Template definition must start with # <Template Name> :: \n"
        ++ chunk))

/-- The chunk loop; a thrown exception aborts the remaining chunks. -/
def foldChunks : ParseState → List String → Except JsError ParseState
  | st, [] => .ok st
  | st, c :: rest =>
      match processChunk st c with
      | .error e => .error e
      | .ok st2 => foldChunks st2 rest

/-- The possible JavaScript arguments of `toLG`: `null`/`undefined`, a value
that is not an array, or an array of chunk strings. -/
inductive JsInput
  | nullIn
  | nonArray
  | arr (chunks : List String)

/-- Embedding of `LGObject.toLG` (lines 44-204): degenerate inputs return the
fresh `LGParsedObj` unchanged; a non-empty array gets a fresh `LGObject`
attached and the chunks processed in order. -/
def LGObject.toLG : JsInput → Except JsError LGParsedObj
  | .nullIn => .ok emptyParsedObj
  | .nonArray => .ok emptyParsedObj
  | .arr [] => .ok emptyParsedObj
  | .arr (c :: cs) =>
      match foldChunks ⟨[], [], []⟩ (c :: cs) with
      | .error e => .error e
      | .ok st => .ok ⟨some ⟨st.LGTemplates, st.entities⟩, st.additionalFilesToParse⟩

/-- The first character, when there is one, is not JS whitespace (used to state
that trimming does not touch a string). -/
def noWsHead (l : List Char) : Bool :=
  match l.head? with
  | some c => !isJsWS c
  | none => true

/-- The final character, when there is one, is not JS whitespace. -/
def noWsLast (l : List Char) : Bool := noWsHead l.reverse

/-- The first character, when there is one, is none of the three list markers. -/
def noMarkerHead (l : List Char) : Bool :=
  match l.head? with
  | some c => !(c = '-') && !(c = '*') && !(c = '+')
  | none => true

/-- Side conditions making `n` a plain template name for the claim statements:
non-empty, no surrounding whitespace (so the chunk-level trim leaves it alone)
and no line breaks (so it stays on the header line). -/
@[reducible] def templateNameOk (n : String) : Prop :=
  n.data ≠ [] ∧ noWsLast n.data = true ∧ '\n' ∉ n.data ∧ '\r' ∉ n.data

/-- Side conditions making `v` a plain variation payload for the claim
statements: non-empty and not surrounded by whitespace (trimming it is the
identity), on one line, free of the `]` that triggers link stripping, accepted
by the variation validator, and not starting with the condition or default
markers. -/
@[reducible] def variationLineOk (v : String) : Prop :=
  v.data ≠ [] ∧ noWsHead v.data = true ∧ noWsLast v.data = true ∧
  '\n' ∉ v.data ∧ '\r' ∉ v.data ∧ ']' ∉ v.data ∧
  validateVariationItem v = true ∧
  jsStartsWith v CONDITION = false ∧ jsStartsWith v DEFAULT = false

/-- Side conditions making `c` a plain condition text for the claim statements:
non-empty, not surrounded by whitespace, and free of `]`. -/
@[reducible] def conditionTextOk (c : String) : Prop :=
  c.data ≠ [] ∧ noWsHead c.data = true ∧ noWsLast c.data = true ∧ ']' ∉ c.data

/-- Side conditions making `s` a plain entity name or type token for the claim
statements: non-empty, no whitespace or line breaks, no `:` separator. -/
@[reducible] def entityTokenOk (s : String) : Prop :=
  s.data ≠ [] ∧ '\n' ∉ s.data ∧ '\r' ∉ s.data ∧ ':' ∉ s.data ∧ ' ' ∉ s.data ∧
  '\t' ∉ s.data

/-!  Helper lemmas about the JS string primitives. -/

theorem data_append (s t : String) : (s ++ t).data = s.data ++ t.data := by
  cases s; cases t; rfl

theorem mk_data (s : String) : String.mk s.data = s := rfl

theorem noWsHead_cons (c : Char) (l : List Char) :
    noWsHead (c :: l) = !isJsWS c := rfl

theorem noWsHead_append {a : List Char} (b : List Char) (h : a ≠ []) :
    noWsHead (a ++ b) = noWsHead a := by
  cases a with
  | nil => exact absurd rfl h
  | cons c t => rfl

theorem noWsLast_append (a : List Char) {b : List Char} (h : b ≠ []) :
    noWsLast (a ++ b) = noWsLast b := by
  unfold noWsLast
  rw [List.reverse_append]
  exact noWsHead_append a.reverse (by simpa using h)

theorem dropWhile_ws_eq_self {l : List Char} (h : noWsHead l = true) :
    l.dropWhile isJsWS = l := by
  cases l with
  | nil => rfl
  | cons c t =>
      rw [noWsHead_cons] at h
      simp only [List.dropWhile_cons]
      rw [show isJsWS c = false by revert h; cases isJsWS c <;> simp, if_neg (by simp)]

theorem jsTrimL_eq_self {l : List Char} (h1 : noWsHead l = true)
    (h2 : noWsLast l = true) : jsTrimL l = l := by
  unfold jsTrimL
  rw [dropWhile_ws_eq_self h1, dropWhile_ws_eq_self h2, List.reverse_reverse]

theorem jsTrim_eq_self {s : String} (h1 : noWsHead s.data = true)
    (h2 : noWsLast s.data = true) : jsTrim s = s := by
  unfold jsTrim
  rw [jsTrimL_eq_self h1 h2, mk_data]

theorem jsTrimL_cons_ws {c : Char} {l : List Char} (hc : isJsWS c = true)
    (h1 : noWsHead l = true) (h2 : noWsLast l = true) : jsTrimL (c :: l) = l := by
  unfold jsTrimL
  simp only [List.dropWhile_cons, hc, if_true]
  rw [dropWhile_ws_eq_self h1, dropWhile_ws_eq_self h2, List.reverse_reverse]

theorem splitLinesL_no_nl {l : List Char} (h1 : '\n' ∉ l) (h2 : '\r' ∉ l) :
    ∀ acc, splitLinesL l acc = [acc.reverse ++ l] := by
  induction l with
  | nil => intro acc; simp [splitLinesL]
  | cons c t ih =>
      intro acc
      have hc1 : ¬(c = '\n') := fun hc => h1 (hc ▸ List.mem_cons_self c t)
      have hc2 : ¬(c = '\r') := fun hc => h2 (hc ▸ List.mem_cons_self c t)
      have ht1 : '\n' ∉ t := fun hm => h1 (List.mem_cons_of_mem c hm)
      have ht2 : '\r' ∉ t := fun hm => h2 (List.mem_cons_of_mem c hm)
      rw [splitLinesL.eq_def]
      split
      · rename_i heq
        rw [List.cons.injEq] at heq
        exact absurd heq.1 hc2
      · rename_i heq
        rw [List.cons.injEq] at heq
        exact absurd heq.1 hc2
      · rename_i heq
        rw [List.cons.injEq] at heq
        exact absurd heq.1 hc1
      · rename_i heq
        rw [List.cons.injEq] at heq
        obtain ⟨he1, he2⟩ := heq
        subst he1; subst he2
        rw [ih ht1 ht2]
        simp
      · rename_i heq
        exact absurd heq (List.cons_ne_nil c t)

theorem splitLinesL_append_nl {a : List Char} (h1 : '\n' ∉ a) (h2 : '\r' ∉ a) :
    ∀ acc b, splitLinesL (a ++ '\n' :: b) acc
      = (acc.reverse ++ a) :: splitLinesL b [] := by
  induction a with
  | nil =>
      intro acc b
      rw [List.nil_append, splitLinesL.eq_def]
      simp
  | cons c t ih =>
      intro acc b
      have hc1 : ¬(c = '\n') := fun hc => h1 (hc ▸ List.mem_cons_self c t)
      have hc2 : ¬(c = '\r') := fun hc => h2 (hc ▸ List.mem_cons_self c t)
      have ht1 : '\n' ∉ t := fun hm => h1 (List.mem_cons_of_mem c hm)
      have ht2 : '\r' ∉ t := fun hm => h2 (List.mem_cons_of_mem c hm)
      rw [List.cons_append, splitLinesL.eq_def]
      split
      · rename_i heq
        rw [List.cons.injEq] at heq
        exact absurd heq.1 hc2
      · rename_i heq
        rw [List.cons.injEq] at heq
        exact absurd heq.1 hc2
      · rename_i heq
        rw [List.cons.injEq] at heq
        exact absurd heq.1 hc1
      · rename_i heq
        rw [List.cons.injEq] at heq
        obtain ⟨he1, he2⟩ := heq
        subst he1; subst he2
        rw [ih ht1 ht2]
        simp
      · rename_i heq
        exact absurd heq (List.cons_ne_nil c (t ++ '\n' :: b))

theorem splitLines_single (s : String) (h1 : '\n' ∉ s.data) (h2 : '\r' ∉ s.data) :
    splitLines s = [s] := by
  unfold splitLines
  rw [splitLinesL_no_nl h1 h2]
  simp [mk_data]

theorem splitLines_append (a b : String) (h1 : '\n' ∉ a.data) (h2 : '\r' ∉ a.data) :
    splitLines (a ++ "\n" ++ b) = a :: splitLines b := by
  unfold splitLines
  have hd : (a ++ "\n" ++ b).data = a.data ++ '\n' :: b.data := by
    rw [data_append, data_append, show ("\n").data = ['\n'] from rfl,
      List.append_assoc]
    rfl
  rw [hd, splitLinesL_append_nl h1 h2]
  simp [mk_data]



theorem splitRefAux_nil (fuel : Nat) (acc : List Char) :
    splitTemplateRefAux fuel [] acc = [acc.reverse] := by
  cases fuel <;> rfl

theorem splitRefAux_zero (cs acc : List Char) :
    splitTemplateRefAux 0 cs acc = [acc.reverse ++ cs] := by
  cases cs with
  | nil => simp [splitTemplateRefAux]
  | cons c t => rfl

theorem splitRefAux_cons_ne (m : Nat) (c : Char) (l acc : List Char)
    (hc : ¬(c = ']')) :
    splitTemplateRefAux (m + 1) (c :: l) acc = splitTemplateRefAux m l (c :: acc) := by
  have hu : splitTemplateRefAux (m + 1) (c :: l) acc =
      if c = ']' then
        (match l with
        | [] => splitTemplateRefAux m l (c :: acc)
        | d :: t2 =>
            if d = '(' then
              match t2.dropWhile (fun e => !(e = ')')) with
              | ')' :: rest2 =>
                  acc.reverse :: (t2.takeWhile (fun e => !(e = ')'))) ::
                    splitTemplateRefAux m rest2 []
              | _ => [acc.reverse ++ ']' :: '(' :: t2]
            else splitTemplateRefAux m l (c :: acc))
      else splitTemplateRefAux m l (c :: acc) := rfl
  rw [hu, if_neg hc]

theorem dropWhile_append_all {p : Char → Bool} {t : List Char}
    (h : ∀ c ∈ t, p c = true) (l : List Char) :
    (t ++ l).dropWhile p = l.dropWhile p := by
  induction t with
  | nil => rfl
  | cons c r ih =>
      rw [List.cons_append, List.dropWhile_cons, h c (List.mem_cons_self c r), if_pos rfl]
      exact ih (fun d hd => h d (List.mem_cons_of_mem c hd))

theorem takeWhile_append_all {p : Char → Bool} {t : List Char}
    (h : ∀ c ∈ t, p c = true) (l : List Char) :
    (t ++ l).takeWhile p = t ++ l.takeWhile p := by
  induction t with
  | nil => rfl
  | cons c r ih =>
      have hr := ih (fun d hd => h d (List.mem_cons_of_mem c hd))
      rw [List.cons_append, List.takeWhile_cons, h c (List.mem_cons_self c r)]
      simp [hr]

theorem notParen_all {t : List Char} (h : ')' ∉ t) :
    ∀ c ∈ t, (!(c = ')') : Bool) = true := by
  intro c hc
  have : ¬(c = ')') := fun he => h (he ▸ hc)
  simp [this]

theorem splitRefAux_junction (m : Nat) (T B acc : List Char) (hT : ')' ∉ T) :
    splitTemplateRefAux (m + 1) (']' :: '(' :: (T ++ ')' :: B)) acc
      = acc.reverse :: T :: splitTemplateRefAux m B [] := by
  have hu : splitTemplateRefAux (m + 1) (']' :: '(' :: (T ++ ')' :: B)) acc =
      (match (T ++ ')' :: B).dropWhile (fun e => !(e = ')')) with
        | ')' :: rest2 =>
            acc.reverse :: ((T ++ ')' :: B).takeWhile (fun e => !(e = ')'))) ::
              splitTemplateRefAux m rest2 []
        | _ => [acc.reverse ++ ']' :: '(' :: (T ++ ')' :: B)]) := rfl
  rw [hu, dropWhile_append_all (notParen_all hT), takeWhile_append_all (notParen_all hT)]
  have hdw : (')' :: B).dropWhile (fun e => !(e = ')')) = ')' :: B := by
    rw [List.dropWhile_cons]
    simp
  have htw : (')' :: B).takeWhile (fun e => !(e = ')')) = [] := by
    rw [List.takeWhile_cons]
    simp
  rw [hdw, htw]
  simp

theorem splitRefAux_scan {A : List Char} (hA : ']' ∉ A) :
    ∀ k acc rest, splitTemplateRefAux (A.length + k) (A ++ rest) acc
      = splitTemplateRefAux k rest (A.reverse ++ acc) := by
  induction A with
  | nil => intro k acc rest; simp
  | cons c t ih =>
      intro k acc rest
      have hc : ¬(c = ']') := fun he => hA (he ▸ List.mem_cons_self c t)
      have ht : ']' ∉ t := fun hm => hA (List.mem_cons_of_mem c hm)
      rw [List.cons_append,
        show (c :: t).length + k = (t.length + k) + 1 by simp [List.length_cons]; omega,
        splitRefAux_cons_ne _ _ _ _ hc, ih ht k (c :: acc) rest]
      simp

theorem splitRefAux_singleton {cs : List Char} (h : ')' ∉ cs) :
    ∀ fuel acc, ∃ x, splitTemplateRefAux fuel cs acc = [x] := by
  induction cs with
  | nil => intro fuel acc; exact ⟨acc.reverse, splitRefAux_nil fuel acc⟩
  | cons c t ih =>
      intro fuel acc
      have ht : ')' ∉ t := fun hm => h (List.mem_cons_of_mem c hm)
      cases fuel with
      | zero => exact ⟨acc.reverse ++ c :: t, splitRefAux_zero _ _⟩
      | succ m =>
          by_cases hc : c = ']'
          · subst hc
            cases t with
            | nil =>
                refine ⟨(']' :: acc).reverse, ?_⟩
                have hu : splitTemplateRefAux (m + 1) [']'] acc
                    = splitTemplateRefAux m [] (']' :: acc) := rfl
                rw [hu, splitRefAux_nil]
            | cons d t2 =>
                by_cases hd : d = '('
                · subst hd
                  have ht2 : ')' ∉ t2 := fun hm => ht (List.mem_cons_of_mem _ hm)
                  have hdw : t2.dropWhile (fun e => !(e = ')')) = [] := by
                    rw [List.dropWhile_eq_nil_iff]
                    intro x hx
                    exact notParen_all ht2 x hx
                  have hu : splitTemplateRefAux (m + 1) (']' :: '(' :: t2) acc =
                      (match t2.dropWhile (fun e => !(e = ')')) with
                        | ')' :: rest2 =>
                            acc.reverse :: (t2.takeWhile (fun e => !(e = ')'))) ::
                              splitTemplateRefAux m rest2 []
                        | _ => [acc.reverse ++ ']' :: '(' :: t2]) := rfl
                  rw [hu, hdw]
                  exact ⟨acc.reverse ++ ']' :: '(' :: t2, rfl⟩
                · have hu : splitTemplateRefAux (m + 1) (']' :: d :: t2) acc =
                      (if d = '(' then
                        match t2.dropWhile (fun e => !(e = ')')) with
                        | ')' :: rest2 =>
                            acc.reverse :: (t2.takeWhile (fun e => !(e = ')'))) ::
                              splitTemplateRefAux m rest2 []
                        | _ => [acc.reverse ++ ']' :: '(' :: t2]
                      else splitTemplateRefAux m (d :: t2) (']' :: acc)) := rfl
                  rw [hu, if_neg hd]
                  exact ih ht m (']' :: acc)
          · rw [splitRefAux_cons_ne _ _ _ _ hc]
            exact ih ht m (c :: acc)

theorem splitTemplateRefL_no_br {cs : List Char} (h : ']' ∉ cs) :
    splitTemplateRefL cs = [cs] := by
  unfold splitTemplateRefL
  have := splitRefAux_scan h 0 [] []
  rw [List.append_nil] at this
  rw [show cs.length = cs.length + 0 from rfl, this, splitRefAux_nil]
  simp

theorem removeTemplateLinkReferences_id {s : String} (h : ']' ∉ s.data) :
    removeTemplateLinkReferences s = s := by
  unfold removeTemplateLinkReferences removeTemplateLinkReferencesL
  rw [splitTemplateRefL_no_br h]
  simp [mk_data]

theorem removeRefs_single_match (a t b : String) (ha : ']' ∉ a.data)
    (ht : ')' ∉ t.data) (hb : ')' ∉ b.data) :
    removeTemplateLinkReferences (a ++ "](" ++ t ++ ")" ++ b) = a ++ "]" := by
  have hd : (a ++ "](" ++ t ++ ")" ++ b).data
      = a.data ++ (']' :: '(' :: (t.data ++ ')' :: b.data)) := by
    simp only [data_append, show ("](").data = [']', '('] from rfl,
      show (")").data = [')'] from rfl]
    simp
  obtain ⟨x, hx⟩ := splitRefAux_singleton hb (t.data.length + b.data.length + 2) []
  have hparts : splitTemplateRefL (a ++ "](" ++ t ++ ")" ++ b).data
      = [a.data, t.data, x] := by
    unfold splitTemplateRefL
    rw [hd, List.length_append,
      show (']' :: '(' :: (t.data ++ ')' :: b.data)).length
        = (t.data.length + b.data.length + 2) + 1 by simp [List.length_append]; omega,
      splitRefAux_scan ha _ [] _,
      splitRefAux_junction _ _ _ _ ht, hx]
    simp
  unfold removeTemplateLinkReferences removeTemplateLinkReferencesL
  rw [hparts]
  simp only [List.length_cons, List.length_nil]
  rw [if_neg (by omega)]
  have hj : joinRefParts [a.data, t.data, x] = a.data ++ [']'] := rfl
  rw [hj]
  have hb2 : (a ++ "]").data = a.data ++ [']'] := by
    rw [data_append]
  rw [← hb2, mk_data]

/-- C4 (counterexample): the claim states that stripping `](...)` link
decorations preserves all other text of the line, including the text after the
last link reference; the code drops that text: on `"see [x](y) end"` it returns
`"see [x]"`, not `"see [x] end"`. -/
theorem C4_counterexample :
    removeTemplateLinkReferences "see [x](y) end" = "see [x]" ∧
      ¬(removeTemplateLinkReferences "see [x](y) end" = "see [x] end") := by
  constructor
  · rfl
  · intro h
    exact absurd (congrArg String.data h) (by decide)

/-- C4 (amended): each `](...)` occurrence collapses to `]` — the bracketed
label before it is preserved and the link target discarded — but the text after
the last link occurrence is discarded as well; a line containing no `](...)`
pattern is returned unchanged.  (Stated for one occurrence; `a` carries no `]`
so the match is the one shown, and `b` carries no `)` so no further match
follows.) -/
theorem C4_amended :
    (∀ a t b : String, ']' ∉ a.data → ')' ∉ t.data → ')' ∉ b.data →
      removeTemplateLinkReferences (a ++ "](" ++ t ++ ")" ++ b) = a ++ "]") ∧
    (∀ s : String, ']' ∉ s.data → removeTemplateLinkReferences s = s) :=
  ⟨fun a t b ha ht hb => removeRefs_single_match a t b ha ht hb,
   fun _ h => removeTemplateLinkReferences_id h⟩

/-- C4 (witness): the amended statement evaluated at `"see [x](y) end"` and at
a line without any link pattern. -/
theorem C4_witness :
    removeTemplateLinkReferences ("see [x" ++ "](" ++ "y" ++ ")" ++ " end")
        = "see [x" ++ "]" ∧
      removeTemplateLinkReferences "no links here" = "no links here" :=
  ⟨C4_amended.1 "see [x" "y" " end" (by decide) (by decide) (by decide),
   C4_amended.2 "no links here" (by decide)⟩

/-- C1 (code bug): re-declaring template `greet` with a chunk that introduces a
new conditional block commits the merged template a second time — the
`pushAtEnd` flag reset by the new-condition logic is also the template-commit
flag — so the parse result holds two entries named `greet` (the same merged
object twice), violating the committed-exactly-when-new / unique-name claim. -/
theorem C1_code_bug_duplicate :
    LGObject.toLG (.arr ["# greet\n- hi", "# greet\n- IF: x\n- hello"]) =
      .ok ⟨some ⟨[⟨"greet", ["hi"], [⟨"x", ["hello"]⟩]⟩,
                  ⟨"greet", ["hi"], [⟨"x", ["hello"]⟩]⟩], []⟩, []⟩ ∧
      (LGObject.toLG (.arr ["# greet\n- hi", "# greet\n- IF: x\n- hello"])).map
          (fun p => p.LGObject.map (fun o => o.LGTemplates.map (fun t => t.name)))
        = .ok (some ["greet", "greet"]) :=
  ⟨rfl, rfl⟩

/-- C5 (counterexample): the body line `" - hi"` begins with the list marker
`-` after whitespace, which the claim accepts, but the code checks
`indexOf('-') === 0` on the unstripped line and throws
NO_LIST_DECORATION_ON_VARIATION. -/
theorem C5_counterexample :
    LGObject.toLG (.arr ["# t\n - hi"]) =
      .error (.structured .NO_LIST_DECORATION_ON_VARIATION
        "Template item: \" - hi\" does not have list decoration. Prefix line with \"-\" or \"+\" or \"*\"") :=
  rfl

/-- C7 (counterexample): a file-reference chunk with a missing link target does
not fail with the structured INVALID_LG_FILE_REF error the claim requires; the
code dereferences the null regex-match result and crashes with a TypeError. -/
theorem C7_counterexample :
    LGObject.toLG (.arr ["[ref]"]) = .error (.typeError "Cannot read property 0 of null") ∧
      ¬∃ txt, LGObject.toLG (.arr ["[ref]"]) =
        .error (.structured ErrCode.INVALID_LG_FILE_REF txt) := by
  constructor
  · rfl
  · rintro ⟨txt, h⟩
    rw [show LGObject.toLG (.arr ["[ref]"])
        = .error (.typeError "Cannot read property 0 of null") from rfl] at h
    simp at h

/-- C9: a chunk whose trimmed text starts with none of the template-start `#`,
file-reference `[`, or entity-definition `$` prefixes makes `toLG` throw the
structured INVALID_INPUT error whose message carries the offending (trimmed)
chunk text. -/
theorem C9_unrecognized_chunk (c : String)
    (h1 : jsStartsWith (jsTrim c) INTENT = false)
    (h2 : jsStartsWith (jsTrim c) FILEREF = false)
    (h3 : jsStartsWith (jsTrim c) ENTITY = false) :
    LGObject.toLG (.arr [c]) =
      .error (.structured .INVALID_INPUT
        ("Unidentified template definition. Template definition must start with # <Template Name> :: \n"
          ++ jsTrim c)) := by
  simp [LGObject.toLG, foldChunks, processChunk, h1, h2, h3]

/-- C9 (witness): the chunk `"hello"` matches no recognized prefix and is
echoed inside the INVALID_INPUT error text. -/
theorem C9_witness :
    LGObject.toLG (.arr ["hello"]) =
      .error (.structured .INVALID_INPUT
        ("Unidentified template definition. Template definition must start with # <Template Name> :: \n"
          ++ jsTrim "hello")) :=
  C9_unrecognized_chunk "hello" rfl rfl rfl

/-- C10: `toLG` maps a null/undefined input, a non-array input and the empty
array to the fresh parsed object (no exception, `LGObject` left unset), while
any successful parse of a non-empty array carries an attached `LGObject`. -/
theorem C10_degenerate_inputs :
    LGObject.toLG .nullIn = .ok ⟨none, []⟩ ∧
    LGObject.toLG .nonArray = .ok ⟨none, []⟩ ∧
    LGObject.toLG (.arr []) = .ok ⟨none, []⟩ ∧
    ∀ c cs p, LGObject.toLG (.arr (c :: cs)) = .ok p → ∃ o, p.LGObject = some o := by
  refine ⟨rfl, rfl, rfl, ?_⟩
  intro c cs p h
  simp only [LGObject.toLG] at h
  cases hf : foldChunks ⟨[], [], []⟩ (c :: cs) with
  | error e => rw [hf] at h; exact absurd h (by simp)
  | ok st =>
      rw [hf] at h
      injection h with h2
      exact ⟨⟨st.LGTemplates, st.entities⟩, by rw [← h2]⟩

/-- C10 (witness): the non-degenerate clause applied to the one-chunk input
`"# t\n- hi"`, whose parse succeeds with an attached LGObject. -/
theorem C10_witness :
    ∃ o, (⟨some ⟨[⟨"t", ["hi"], []⟩], []⟩, []⟩ : LGParsedObj).LGObject = some o :=
  C10_degenerate_inputs.2.2.2 "# t\n- hi" [] _ rfl



theorem splitOnCharAux_no_sep {sep : Char} {l : List Char} (h : sep ∉ l) :
    ∀ acc, splitOnCharAux sep l acc = [acc.reverse ++ l] := by
  induction l with
  | nil => intro acc; simp [splitOnCharAux]
  | cons c t ih =>
      intro acc
      have hc : ¬(c = sep) := fun he => h (he ▸ List.mem_cons_self c t)
      have ht : sep ∉ t := fun hm => h (List.mem_cons_of_mem c hm)
      rw [splitOnCharAux, if_neg hc, ih ht]
      simp

theorem splitOnCharAux_append {sep : Char} {a : List Char} (h : sep ∉ a) :
    ∀ acc b, splitOnCharAux sep (a ++ sep :: b) acc
      = (acc.reverse ++ a) :: splitOnCharAux sep b [] := by
  induction a with
  | nil =>
      intro acc b
      rw [List.nil_append, splitOnCharAux, if_pos rfl]
      simp
  | cons c t ih =>
      intro acc b
      have hc : ¬(c = sep) := fun he => h (he ▸ List.mem_cons_self c t)
      have ht : sep ∉ t := fun hm => h (List.mem_cons_of_mem c hm)
      rw [List.cons_append, splitOnCharAux, if_neg hc, ih ht]
      simp

theorem afterFirstSpace_hash (l : List Char) :
    afterFirstSpaceL ('#' :: ' ' :: l) = l := rfl

theorem jsTrimL_pad {l : List Char} (hne : l ≠ []) (h1 : noWsHead l = true)
    (h2 : noWsLast l = true) : jsTrimL (' ' :: (l ++ [' '])) = l := by
  unfold jsTrimL
  have hinner : List.dropWhile isJsWS (l ++ [' ']) = l ++ [' '] :=
    dropWhile_ws_eq_self (by rw [noWsHead_append [' '] hne]; exact h1)
  have houter : List.dropWhile isJsWS l.reverse = l.reverse :=
    dropWhile_ws_eq_self h2
  rw [List.dropWhile_cons, if_pos (by decide), hinner, List.reverse_append,
    show ([' '] : List Char).reverse = [' '] from rfl, List.singleton_append,
    List.dropWhile_cons, if_pos (by decide), houter, List.reverse_reverse]

theorem noWs_of_entityToken {s : String} (h : entityTokenOk s) :
    noWsHead s.data = true ∧ noWsLast s.data = true := by
  obtain ⟨hne, h1, h2, h3, h4, h5⟩ := h
  constructor
  · cases hd : s.data with
    | nil => rfl
    | cons c t =>
        rw [noWsHead_cons]
        have hc : c ∈ s.data := hd ▸ List.mem_cons_self c t
        have : isJsWS c = false := by
          unfold isJsWS
          have e1 : ¬(c = ' ') := fun he => h4 (he ▸ hc)
          have e2 : ¬(c = '\t') := fun he => h5 (he ▸ hc)
          have e3 : ¬(c = '\n') := fun he => h1 (he ▸ hc)
          have e4 : ¬(c = '\r') := fun he => h2 (he ▸ hc)
          simp [e1, e2, e3, e4]
        rw [this]
        rfl
  · unfold noWsLast
    cases hd : s.data.reverse with
    | nil => rfl
    | cons c t =>
        rw [noWsHead_cons]
        have hc : c ∈ s.data := by
          rw [← List.mem_reverse, hd]
          exact List.mem_cons_self c t
        have : isJsWS c = false := by
          unfold isJsWS
          have e1 : ¬(c = ' ') := fun he => h4 (he ▸ hc)
          have e2 : ¬(c = '\t') := fun he => h5 (he ▸ hc)
          have e3 : ¬(c = '\n') := fun he => h1 (he ▸ hc)
          have e4 : ¬(c = '\r') := fun he => h2 (he ▸ hc)
          simp [e1, e2, e3, e4]
        rw [this]
        rfl

theorem string_ne_empty_of_data {s : String} (h : s.data ≠ []) : ¬(s = "") :=
  fun he => h (by rw [he])

theorem string_beq_empty_false {s : String} (h : s.data ≠ []) : (s == "") = false := by
  rw [beq_eq_false_iff_ne]
  exact string_ne_empty_of_data h

theorem string_beq_self (s : String) : (s == s) = true := by
  rw [beq_iff_eq]

theorem string_beq_false {s t : String} (h : ¬(s = t)) : (s == t) = false := by
  rw [beq_eq_false_iff_ne]
  exact h

theorem str_append_assoc (a b c : String) : a ++ b ++ c = a ++ (b ++ c) := by
  cases a with
  | mk A =>
      cases b with
      | mk B =>
          cases c with
          | mk C =>
              show String.mk (A ++ B ++ C) = String.mk (A ++ (B ++ C))
              rw [List.append_assoc]

theorem startsWith_false_of_marker {v : String} {c : Char} (m : Char)
    (hd : v.data = c :: v.data.tail) (hne : ¬(c = m)) :
    jsStartsWith v (String.mk [m]) = false := by
  unfold jsStartsWith
  rw [hd]
  have hmc : (m == c) = false := by
    rw [beq_eq_false_iff_ne]
    exact fun he => hne he.symm
  show (m :: []).isPrefixOf (c :: v.data.tail) = false
  simp [List.isPrefixOf, hmc]



theorem not_mem_append {c : Char} {a b : List Char} (ha : c ∉ a) (hb : c ∉ b) :
    c ∉ a ++ b := fun h => (List.mem_append.mp h).elim ha hb

theorem classify_chunk {s : String} {c : Char} {rest : List Char}
    (hd : s.data = c :: rest) :
    jsStartsWith s INTENT = ('#' == c) ∧ jsStartsWith s FILEREF = ('[' == c) ∧
      jsStartsWith s ENTITY = ('$' == c) := by
  unfold jsStartsWith INTENT FILEREF ENTITY
  rw [hd]
  refine ⟨?_, ?_, ?_⟩ <;> simp [List.isPrefixOf]

theorem C7_fileref_general (tgt : String) (hne : tgt.data ≠ [])
    (h1 : '\n' ∉ tgt.data) (h2 : '\r' ∉ tgt.data) (h3 : ')' ∉ tgt.data) :
    LGObject.toLG (.arr ["[ref](" ++ tgt ++ ")"]) =
      .ok ⟨some ⟨[], []⟩, [tgt]⟩ := by
  have hd : ("[ref](" ++ tgt ++ ")").data
      = '[' :: 'r' :: 'e' :: 'f' :: ']' :: '(' :: (tgt.data ++ [')']) := by
    simp only [data_append, show ("[ref](").data = ['[', 'r', 'e', 'f', ']', '('] from rfl,
      show (")").data = [')'] from rfl]
    simp
  have htrim : jsTrim ("[ref](" ++ tgt ++ ")") = "[ref](" ++ tgt ++ ")" := by
    apply jsTrim_eq_self
    · rw [hd]; rfl
    · rw [hd, show ('[' :: 'r' :: 'e' :: 'f' :: ']' :: '(' :: (tgt.data ++ [')']))
          = (('[' :: 'r' :: 'e' :: 'f' :: ']' :: '(' :: tgt.data) ++ [')']) by simp,
        noWsLast_append _ (by simp)]
      rfl
  have hform : ("[ref](" ++ tgt ++ ")").data
      = ['[', 'r', 'e', 'f', ']', '('] ++ (tgt.data ++ [')']) := by
    rw [hd]
    rfl
  have hnonl : '\n' ∉ ("[ref](" ++ tgt ++ ")").data := by
    rw [hform]
    exact not_mem_append (by decide) (not_mem_append h1 (by decide))
  have hnocr : '\r' ∉ ("[ref](" ++ tgt ++ ")").data := by
    rw [hform]
    exact not_mem_append (by decide) (not_mem_append h2 (by decide))
  have hsplit : splitLines ("[ref](" ++ tgt ++ ")") = ["[ref](" ++ tgt ++ ")"] :=
    splitLines_single _ hnonl hnocr
  have hclass := classify_chunk hd
  have hmatch : firstParenMatchL ("[ref](" ++ tgt ++ ")").data = some tgt.data := by
    unfold firstParenMatchL
    rw [hd]
    have hdw : ('[' :: 'r' :: 'e' :: 'f' :: ']' :: '(' :: (tgt.data ++ [')'])).dropWhile
        (fun c => !(c = '(')) = '(' :: (tgt.data ++ [')']) := rfl
    have hdw2 : (tgt.data ++ [')']).dropWhile (fun c => !(c = ')')) = [')'] := by
      rw [dropWhile_append_all (notParen_all h3)]
      rfl
    have htw2 : (tgt.data ++ [')']).takeWhile (fun c => !(c = ')')) = tgt.data := by
      rw [takeWhile_append_all (notParen_all h3)]
      simp
    simp only [hdw, hdw2, htw2]
  simp only [LGObject.toLG, foldChunks, processChunk, htrim, hsplit,
    hclass.1, hclass.2.1, hclass.2.2]
  norm_num
  simp only [processFileRefChunk, List.headD, htrim, hmatch, mk_data,
    string_beq_empty_false hne]
  simp



/-- C7 (amended): a file-reference chunk with a non-empty parenthesized target
appends exactly that target string to `additionalFilesToParse`; an empty target
`[ref]()` fails with the structured INVALID_LG_FILE_REF; a chunk with no
parenthesized group at all crashes with an unstructured TypeError (the null
regex-match result is dereferenced) instead of the structured error. -/
theorem C7_amended :
    (∀ tgt : String, tgt.data ≠ [] → '\n' ∉ tgt.data → '\r' ∉ tgt.data →
      ')' ∉ tgt.data →
      LGObject.toLG (.arr ["[ref](" ++ tgt ++ ")"]) = .ok ⟨some ⟨[], []⟩, [tgt]⟩) ∧
    LGObject.toLG (.arr ["[ref]()"]) =
      .error (.structured .INVALID_LG_FILE_REF "[ERROR]: Invalid LU File Ref: [ref]()") ∧
    LGObject.toLG (.arr ["[ref]"]) =
      .error (.typeError "Cannot read property 0 of null") :=
  ⟨fun tgt h1 h2 h3 h4 => C7_fileref_general tgt h1 h2 h3 h4, rfl, rfl⟩

/-- C7 (witness): `[ref](other.lg)` adds exactly `"other.lg"`. -/
theorem C7_witness :
    LGObject.toLG (.arr ["[ref](" ++ "other.lg" ++ ")"]) =
      .ok ⟨some ⟨[], []⟩, ["other.lg"]⟩ :=
  C7_amended.1 "other.lg" (by decide) (by decide) (by decide) (by decide)


theorem not_mem_cons {c x : Char} {l : List Char} (h1 : ¬(c = x)) (h2 : c ∉ l) :
    c ∉ x :: l := fun h => (List.mem_cons.mp h).elim h1 h2

theorem entity_chunk_data (nm rest : String) :
    ("$ " ++ nm ++ rest).data = '$' :: ' ' :: (nm.data ++ rest.data) := by
  simp only [data_append, show ("$ ").data = ['$', ' '] from rfl]
  simp

theorem processChunk_entity_gen (st : ParseState) (nm ty sfx : String)
    (hnm : entityTokenOk nm) (hty : entityTokenOk ty)
    (hlast : noWsLast (ty.data ++ sfx.data) = true)
    (hsfx2 : '\n' ∉ sfx.data) (hsfx3 : '\r' ∉ sfx.data) (hsfx4 : ':' ∉ sfx.data) :
    processChunk st ("$ " ++ nm ++ " : " ++ ty ++ sfx) =
      (let entityTypeAndAttributes := jsSplitChar ' ' (String.mk (ty.data ++ sfx.data))
       let entityType := jsTrim (entityTypeAndAttributes.headD "")
       let entityAttributes :=
         if !(entityTypeAndAttributes.length = 1) then attrLoop (entityTypeAndAttributes.drop 1)
         else []
       match st.entities.findIdx? (fun e => e.name == nm) with
       | some i =>
           .ok ⟨st.LGTemplates,
             updateAt st.entities i
               (fun e => ⟨e.name, LGEntity.getEntityType entityType, e.attributes⟩),
             st.additionalFilesToParse⟩
       | none => .ok ⟨st.LGTemplates,
           st.entities ++ [⟨nm, LGEntity.getEntityType entityType, entityAttributes⟩],
           st.additionalFilesToParse⟩) := by
  obtain ⟨hne, hnl, hcr, hcol, hsp, htab⟩ := hnm
  obtain ⟨tne, tnl, tcr, tcol, tsp, ttab⟩ := hty
  obtain ⟨hnmH, hnmL⟩ := noWs_of_entityToken ⟨hne, hnl, hcr, hcol, hsp, htab⟩
  obtain ⟨htyH, htyL⟩ := noWs_of_entityToken ⟨tne, tnl, tcr, tcol, tsp, ttab⟩
  have hd : ("$ " ++ nm ++ " : " ++ ty ++ sfx).data
      = '$' :: ' ' :: (nm.data ++ (' ' :: ':' :: ' ' :: (ty.data ++ sfx.data))) := by
    rw [show "$ " ++ nm ++ " : " ++ ty ++ sfx = "$ " ++ nm ++ (" : " ++ (ty ++ sfx)) by
      rw [str_append_assoc, str_append_assoc]]
    rw [entity_chunk_data nm (" : " ++ (ty ++ sfx)), data_append, data_append]
    rfl
  have htrim : jsTrim ("$ " ++ nm ++ " : " ++ ty ++ sfx)
      = "$ " ++ nm ++ " : " ++ ty ++ sfx := by
    apply jsTrim_eq_self
    · rw [hd]; rfl
    · rw [hd]
      have hrev : ('$' :: ' ' :: (nm.data ++ (' ' :: ':' :: ' ' :: (ty.data ++ sfx.data))))
          = (('$' :: ' ' :: nm.data) ++ [' ', ':', ' ']) ++ (ty.data ++ sfx.data) := by
        simp
      rw [hrev, noWsLast_append]
      · exact hlast
      · intro hcon
        rw [List.append_eq_nil] at hcon
        exact tne hcon.1
  have hnonl : '\n' ∉ ("$ " ++ nm ++ " : " ++ ty ++ sfx).data := by
    rw [hd]
    exact not_mem_cons (by decide) (not_mem_cons (by decide) (not_mem_append hnl
      (not_mem_cons (by decide) (not_mem_cons (by decide) (not_mem_cons (by decide)
        (not_mem_append tnl hsfx2))))))
  have hnocr : '\r' ∉ ("$ " ++ nm ++ " : " ++ ty ++ sfx).data := by
    rw [hd]
    exact not_mem_cons (by decide) (not_mem_cons (by decide) (not_mem_append hcr
      (not_mem_cons (by decide) (not_mem_cons (by decide) (not_mem_cons (by decide)
        (not_mem_append tcr hsfx3))))))
  have hsplitl : splitLines ("$ " ++ nm ++ " : " ++ ty ++ sfx)
      = ["$ " ++ nm ++ " : " ++ ty ++ sfx] := splitLines_single _ hnonl hnocr
  have hclass := classify_chunk hd
  have hrep : jsReplaceFirst ("$ " ++ nm ++ " : " ++ ty ++ sfx) ENTITY ""
      = String.mk (' ' :: (nm.data ++ (' ' :: ':' :: ' ' :: (ty.data ++ sfx.data)))) := by
    unfold jsReplaceFirst ENTITY
    rw [hd]
    rfl
  have hsplitc : jsSplitChar ':'
      (String.mk (' ' :: (nm.data ++ (' ' :: ':' :: ' ' :: (ty.data ++ sfx.data)))))
      = [String.mk (' ' :: (nm.data ++ [' '])), String.mk (' ' :: (ty.data ++ sfx.data))] := by
    unfold jsSplitChar
    have hshape : (' ' :: (nm.data ++ (' ' :: ':' :: ' ' :: (ty.data ++ sfx.data))))
        = ((' ' :: (nm.data ++ [' '])) ++ ':' :: (' ' :: (ty.data ++ sfx.data))) := by
      simp
    rw [hshape, splitOnCharAux_append
        (not_mem_cons (by decide) (not_mem_append hcol (by decide))),
      splitOnCharAux_no_sep
        (not_mem_cons (by decide) (not_mem_append tcol hsfx4))]
    simp
  have hname : jsTrim (String.mk (' ' :: (nm.data ++ [' ']))) = nm := by
    unfold jsTrim
    rw [show (String.mk (' ' :: (nm.data ++ [' ']))).data = ' ' :: (nm.data ++ [' ']) from rfl,
      jsTrimL_pad hne hnmH hnmL, mk_data]
  have hbody : jsTrim (String.mk (' ' :: (ty.data ++ sfx.data)))
      = String.mk (ty.data ++ sfx.data) := by
    unfold jsTrim
    rw [show (String.mk (' ' :: (ty.data ++ sfx.data))).data
        = ' ' :: (ty.data ++ sfx.data) from rfl,
      jsTrimL_cons_ws (by decide)]
    · rw [noWsHead_append sfx.data tne]
      exact htyH
    · exact hlast
  unfold processChunk
  rw [htrim]
  simp only [hsplitl, hclass.1, hclass.2.1, hclass.2.2]
  norm_num
  unfold processEntityChunk
  simp only [List.headD, hrep, hsplitc, List.length_cons, List.length_nil]
  norm_num
  rw [if_neg (by decide), if_neg (by decide)]
  simp only [List.getD, List.get?, hname, hbody]
  rcases hsc : jsSplitChar ' ' (String.mk (ty.data ++ sfx.data)) with _ | ⟨a, l⟩ <;>
    rcases hfi : List.findIdx? (fun e => e.name == nm) st.entities with _ | i <;>
      simp [hsc, hfi]


theorem str_append_empty (s : String) : s ++ "" = s := by
  cases s with
  | mk A =>
      show String.mk (A ++ []) = String.mk A
      rw [List.append_nil]

/-- C8: re-declaring an entity name overwrites only the stored type and
discards the re-declaration's attributes, leaving exactly one entity with that
name: `$ nm : t1` followed by `$ nm : t2 k = v` yields the single entity
`⟨nm, t2, []⟩` (the attributes `k = v` of the second declaration are dropped
and the first declaration had none). -/
theorem C8_entity_redeclaration (nm t1 t2 : String)
    (h1 : entityTokenOk nm) (h2 : entityTokenOk t1) (h3 : entityTokenOk t2) :
    LGObject.toLG (.arr ["$ " ++ nm ++ " : " ++ t1,
        "$ " ++ nm ++ " : " ++ t2 ++ " k = v"]) =
      .ok ⟨some ⟨[], [⟨nm, t2, []⟩]⟩, []⟩ := by
  have hemp : ("" : String).data = [] := rfl
  have hs1 : processChunk ⟨[], [], []⟩ ("$ " ++ nm ++ " : " ++ t1)
      = .ok ⟨[], [⟨nm, t1, []⟩], []⟩ := by
    rw [show ("$ " ++ nm ++ " : " ++ t1)
        = ("$ " ++ nm ++ " : " ++ t1 ++ "") from (str_append_empty _).symm]
    rw [processChunk_entity_gen ⟨[], [], []⟩ nm t1 "" h1 h2
      (by rw [hemp, List.append_nil]; exact (noWs_of_entityToken h2).2)
      (by rw [hemp]; exact List.not_mem_nil _)
      (by rw [hemp]; exact List.not_mem_nil _)
      (by rw [hemp]; exact List.not_mem_nil _)]
    have hsp1 : jsSplitChar ' ' (String.mk (t1.data ++ ("").data)) = [t1] := by
      rw [hemp, List.append_nil]
      unfold jsSplitChar
      rw [splitOnCharAux_no_sep h2.2.2.2.2.1]
      simp [mk_data]
    simp only [hsp1, List.headD, List.length_singleton, List.findIdx?]
    norm_num
    rw [jsTrim_eq_self (noWs_of_entityToken h2).1 (noWs_of_entityToken h2).2]
    rfl
  have hs2 : processChunk ⟨[], [⟨nm, t1, []⟩], []⟩
        ("$ " ++ nm ++ " : " ++ t2 ++ " k = v")
      = .ok ⟨[], [⟨nm, t2, []⟩], []⟩ := by
    rw [processChunk_entity_gen ⟨[], [⟨nm, t1, []⟩], []⟩ nm t2 " k = v" h1 h3
      (by rw [show (" k = v" : String).data = [' ', 'k', ' ', '=', ' ', 'v'] from rfl,
            noWsLast_append t2.data (by simp)]
          rfl)
      (by decide) (by decide) (by decide)]
    have hsp2 : jsSplitChar ' ' (String.mk (t2.data ++ (" k = v").data))
        = [t2, "k", "=", "v"] := by
      unfold jsSplitChar
      rw [show (" k = v" : String).data = ' ' :: ['k', ' ', '=', ' ', 'v'] from rfl,
        splitOnCharAux_append h3.2.2.2.2.1]
      simp [mk_data]
      rfl
    simp only [hsp2, List.headD, List.findIdx?]
    norm_num
    rw [jsTrim_eq_self (noWs_of_entityToken h3).1 (noWs_of_entityToken h3).2]
    simp [updateAt, LGEntity.getEntityType]
  simp only [LGObject.toLG, foldChunks, hs1, hs2]


/-- C8 (witness): `$ person : builtin` then `$ person : custom k = v` gives the
single entity `person` with type `custom` and no attributes. -/
theorem C8_witness :
    LGObject.toLG (.arr ["$ " ++ "person" ++ " : " ++ "builtin",
        "$ " ++ "person" ++ " : " ++ "custom" ++ " k = v"]) =
      .ok ⟨some ⟨[], [⟨"person", "custom", []⟩]⟩, []⟩ :=
  C8_entity_redeclaration "person" "builtin" "custom" (by decide) (by decide) (by decide)


theorem str_ext {s t : String} (h : s.data = t.data) : s = t := by
  cases s with
  | mk A =>
      cases t with
      | mk B =>
          have h2 : A = B := h
          rw [h2]

theorem processBodyLine_flat (st : BodyState) (v : String) (hv : variationLineOk v)
    (hflat : st.inConditionalResponses = false) :
    processBodyLine st ("- " ++ v) =
      .ok ⟨⟨st.tmpl.name,
            if st.tmpl.variations.contains v then st.tmpl.variations
            else st.tmpl.variations ++ [v],
            st.tmpl.conditionalResponses⟩,
        addDetectedEntities st.entities (parseEntity ("- " ++ v)),
        st.condItem, false, st.pushAtEnd⟩ := by
  obtain ⟨hne, hH, hL, hnl, hcr, hbr, hval, hcnd, hdef⟩ := hv
  have hd : ("- " ++ v).data = '-' :: ' ' :: v.data := by
    rw [data_append]
    rfl
  have hrm : removeTemplateLinkReferences ("- " ++ v) = "- " ++ v :=
    removeTemplateLinkReferences_id
      (by rw [hd]
          exact not_mem_cons (by decide) (not_mem_cons (by decide) hbr))
  have hsw1 : jsStartsWith ("- " ++ v) "-" = true := by
    unfold jsStartsWith
    rw [hd]
    rfl
  have hitem : jsTrim (String.mk (("- " ++ v).data.drop 1)) = v := by
    rw [hd]
    show jsTrim (String.mk (' ' :: v.data)) = v
    unfold jsTrim
    rw [show (String.mk (' ' :: v.data)).data = ' ' :: v.data from rfl,
      jsTrimL_cons_ws (by decide) hH hL, mk_data]
  have htrv : jsTrim v = v := jsTrim_eq_self hH hL
  unfold processBodyLine
  simp only [hrm, hsw1, hitem, htrv, hcnd, hdef, hflat, hval, Bool.not_true,
    Bool.false_and, Bool.true_and, if_false, Bool.false_eq_true, ite_false]
  by_cases hc : v ∈ st.tmpl.variations
  · simp [hc]
  · simp [hc]

/-- C6: a template chunk whose body produced no variations and no conditional
blocks fails with INVALID_TEMPLATE naming the template, while a chunk with one
valid variation line parses without that error. -/
theorem C6_invalid_template (n v : String) (hn : templateNameOk n)
    (hv : variationLineOk v) :
    LGObject.toLG (.arr ["# " ++ n]) =
      .error (.structured .INVALID_TEMPLATE
        ("Template \"" ++ n ++
          "\" does not have any variations or conditional response definition")) ∧
    (∃ ents, LGObject.toLG (.arr ["# " ++ n ++ "\n- " ++ v]) =
      .ok ⟨some ⟨[⟨n, [v], []⟩], ents⟩, []⟩) := by
  obtain ⟨hne, hnL, hnl, hncr⟩ := hn
  constructor
  · have hd : ("# " ++ n).data = '#' :: ' ' :: n.data := by
      rw [data_append]
      rfl
    have htrim : jsTrim ("# " ++ n) = "# " ++ n := by
      apply jsTrim_eq_self
      · rw [hd]; rfl
      · rw [hd, show ('#' :: ' ' :: n.data) = ['#', ' '] ++ n.data from rfl,
          noWsLast_append _ hne]
        exact hnL
    have hsplit : splitLines ("# " ++ n) = ["# " ++ n] :=
      splitLines_single _
        (by rw [hd]; exact not_mem_cons (by decide) (not_mem_cons (by decide) hnl))
        (by rw [hd]; exact not_mem_cons (by decide) (not_mem_cons (by decide) hncr))
    have hclass := classify_chunk hd
    have hname : String.mk (afterFirstSpaceL ("# " ++ n).data) = n := by
      rw [hd, afterFirstSpace_hash, mk_data]
    simp only [LGObject.toLG, foldChunks, processChunk, htrim, hsplit, hclass.1]
    norm_num
    unfold processIntentChunk
    simp only [List.headD, hname, List.tail, List.length_nil, foldBody, finishBody]
    norm_num
    simp [mkLGTemplate]
  · have hassoc : "# " ++ n ++ "\n- " ++ v = ("# " ++ n) ++ "\n" ++ ("- " ++ v) :=
      str_ext (by simp [data_append])
    have hd : ("# " ++ n).data = '#' :: ' ' :: n.data := by
      rw [data_append]
      rfl
    have hdv : ("- " ++ v).data = '-' :: ' ' :: v.data := by
      rw [data_append]
      rfl
    have htrim : jsTrim (("# " ++ n) ++ "\n" ++ ("- " ++ v))
        = ("# " ++ n) ++ "\n" ++ ("- " ++ v) := by
      apply jsTrim_eq_self
      · rw [data_append, data_append, hd]
        rfl
      · rw [data_append, noWsLast_append _ (by rw [hdv]; simp), hdv,
          show ('-' :: ' ' :: v.data) = ['-', ' '] ++ v.data from rfl,
          noWsLast_append _ hv.1]
        exact hv.2.2.1
    have hsplit : splitLines (("# " ++ n) ++ "\n" ++ ("- " ++ v))
        = ["# " ++ n, "- " ++ v] := by
      rw [splitLines_append _ _
        (by rw [hd]; exact not_mem_cons (by decide) (not_mem_cons (by decide) hnl))
        (by rw [hd]; exact not_mem_cons (by decide) (not_mem_cons (by decide) hncr))]
      rw [splitLines_single _
        (by rw [hdv]; exact not_mem_cons (by decide) (not_mem_cons (by decide) hv.2.2.2.1))
        (by rw [hdv]; exact not_mem_cons (by decide) (not_mem_cons (by decide) hv.2.2.2.2.1))]
    have hclass := classify_chunk (show (("# " ++ n) ++ "\n" ++ ("- " ++ v)).data
        = '#' :: (' ' :: n.data ++ '\n' :: ("- " ++ v).data) by
      rw [data_append, data_append, hd]
      simp)
    have hname : String.mk (afterFirstSpaceL ("# " ++ n).data) = n := by
      rw [hd, afterFirstSpace_hash, mk_data]
    have hbody := processBodyLine_flat ⟨mkLGTemplate n, [], .nullItem, false, true⟩ v hv rfl
    have hfold : foldBody ⟨mkLGTemplate n, [], .nullItem, false, true⟩ ["- " ++ v]
        = .ok ⟨⟨n, [v], []⟩, addDetectedEntities [] (parseEntity ("- " ++ v)),
            .nullItem, false, true⟩ := by
      simp only [foldBody, hbody]
      simp [mkLGTemplate]
    refine ⟨addDetectedEntities [] (parseEntity ("- " ++ v)), ?_⟩
    rw [hassoc]
    simp only [LGObject.toLG, foldChunks, processChunk, htrim, hsplit, hclass.1]
    norm_num
    unfold processIntentChunk
    simp only [List.headD, List.tail, hname, List.length_nil]
    norm_num
    simp only [mkLGTemplate] at hfold ⊢
    simp only [hfold, finishBody]
    simp [string_ne_empty_of_data hne]


/-- C6 (witness): `# t` alone raises INVALID_TEMPLATE; `# t` with variation
`hi` parses. -/
theorem C6_witness :
    LGObject.toLG (.arr ["# " ++ "t"]) =
      .error (.structured .INVALID_TEMPLATE
        ("Template \"" ++ "t" ++
          "\" does not have any variations or conditional response definition")) ∧
    (∃ ents, LGObject.toLG (.arr ["# " ++ "t" ++ "\n- " ++ "hi"]) =
      .ok ⟨some ⟨[⟨"t", ["hi"], []⟩], ents⟩, []⟩) :=
  C6_invalid_template "t" "hi" (by decide) (by decide)


theorem marker_startsWith_false {l : String} (h : noMarkerHead l.data = true) :
    jsStartsWith l "-" = false ∧ jsStartsWith l "*" = false ∧
      jsStartsWith l "+" = false := by
  cases hd : l.data with
  | nil =>
      unfold jsStartsWith
      rw [hd]
      exact ⟨rfl, rfl, rfl⟩
  | cons c t =>
      rw [noMarkerHead, hd] at h
      simp only [List.head?] at h
      have h1 : ¬(c = '-') := by
        intro he
        rw [he] at h
        simp at h
      have h2 : ¬(c = '*') := by
        intro he
        rw [he] at h
        simp at h
      have h3 : ¬(c = '+') := by
        intro he
        rw [he] at h
        simp at h
      unfold jsStartsWith
      rw [hd]
      refine ⟨?_, ?_, ?_⟩ <;>
        · show List.isPrefixOf _ (c :: t) = false
          simp [List.isPrefixOf]
          intro he
          exact absurd he.symm (by assumption)

/-- C5 (amended): a template body line is accepted only when its very first
character (after link-reference stripping) is one of `-`, `*`, `+`; leading
whitespace before the marker is NOT allowed.  Any line whose first character is
not a marker aborts the chunk with NO_LIST_DECORATION_ON_VARIATION whose text
names the offending line, and the following lines are never processed (the
valid `- ok` line after it has no effect). -/
theorem C5_amended (l : String) (h1 : '\n' ∉ l.data) (h2 : '\r' ∉ l.data)
    (h3 : ']' ∉ l.data) (h4 : noMarkerHead l.data = true) :
    LGObject.toLG (.arr ["# t\n" ++ l ++ "\n- ok"]) =
      .error (.structured .NO_LIST_DECORATION_ON_VARIATION
        ("Template item: \"" ++ l ++
          "\" does not have list decoration. Prefix line with \"-\" or \"+\" or \"*\"")) := by
  have hassoc : "# t\n" ++ l ++ "\n- ok" = "# t" ++ "\n" ++ (l ++ "\n" ++ "- ok") :=
    str_ext (by simp [data_append])
  have hd : ("# t" ++ "\n" ++ (l ++ "\n" ++ "- ok")).data
      = '#' :: (' ' :: 't' :: '\n' :: (l.data ++ '\n' :: ['-', ' ', 'o', 'k'])) := by
    simp [data_append]
  have htrim : jsTrim ("# t" ++ "\n" ++ (l ++ "\n" ++ "- ok"))
      = "# t" ++ "\n" ++ (l ++ "\n" ++ "- ok") := by
    apply jsTrim_eq_self
    · rw [hd]; rfl
    · rw [hd, show ('#' :: (' ' :: 't' :: '\n' :: (l.data ++ '\n' :: ['-', ' ', 'o', 'k'])))
          = (['#', ' ', 't', '\n'] ++ l.data) ++ ('\n' :: ['-', ' ', 'o', 'k']) by simp,
        noWsLast_append _ (by simp)]
      rfl
  have hsplit : splitLines ("# t" ++ "\n" ++ (l ++ "\n" ++ "- ok"))
      = ["# t", l, "- ok"] := by
    rw [splitLines_append _ _ (by decide) (by decide),
      splitLines_append _ _ h1 h2,
      splitLines_single _ (by decide) (by decide)]
  have hclass := classify_chunk hd
  have hmk := marker_startsWith_false h4
  have hrm : removeTemplateLinkReferences l = l := removeTemplateLinkReferences_id h3
  have hbad : processBodyLine ⟨mkLGTemplate "t", [], .nullItem, false, true⟩ l
      = .error (.structured .NO_LIST_DECORATION_ON_VARIATION
          ("Template item: \"" ++ l ++
            "\" does not have list decoration. Prefix line with \"-\" or \"+\" or \"*\"")) := by
    unfold processBodyLine
    simp only [hrm, hmk.1, hmk.2.1, hmk.2.2, Bool.not_false, Bool.true_and, if_true]
  rw [hassoc]
  simp only [LGObject.toLG, foldChunks, processChunk, htrim, hsplit, hclass.1]
  norm_num
  unfold processIntentChunk
  simp only [List.headD, List.tail, List.length_nil]
  norm_num
  simp only [show String.mk (afterFirstSpaceL ("# t").data) = "t" from rfl]
  simp only [foldBody, hbad]

/-- C5 (witness): the line `" - hi"` — marker after whitespace — is rejected
with NO_LIST_DECORATION_ON_VARIATION even though a valid line follows. -/
theorem C5_witness :
    LGObject.toLG (.arr ["# t\n" ++ " - hi" ++ "\n- ok"]) =
      .error (.structured .NO_LIST_DECORATION_ON_VARIATION
        ("Template item: \"" ++ " - hi" ++
          "\" does not have list decoration. Prefix line with \"-\" or \"+\" or \"*\"")) :=
  C5_amended " - hi" (by decide) (by decide) (by decide) (by decide)


theorem template_flat_chunk_facts (n v : String) (hn : templateNameOk n)
    (hv : variationLineOk v) :
    jsTrim ("# " ++ n ++ "\n- " ++ v) = "# " ++ n ++ "\n- " ++ v ∧
    splitLines ("# " ++ n ++ "\n- " ++ v) = ["# " ++ n, "- " ++ v] ∧
    jsStartsWith ("# " ++ n ++ "\n- " ++ v) INTENT = true := by
  obtain ⟨hne, hnL, hnl, hncr⟩ := hn
  have hassoc : "# " ++ n ++ "\n- " ++ v = ("# " ++ n) ++ "\n" ++ ("- " ++ v) :=
    str_ext (by simp [data_append])
  have hd : ("# " ++ n).data = '#' :: ' ' :: n.data := by
    rw [data_append]
    rfl
  have hdv : ("- " ++ v).data = '-' :: ' ' :: v.data := by
    rw [data_append]
    rfl
  have hdfull : (("# " ++ n) ++ "\n" ++ ("- " ++ v)).data
      = '#' :: (' ' :: n.data ++ '\n' :: ("- " ++ v).data) := by
    rw [data_append, data_append, hd]
    simp
  refine ⟨?_, ?_, ?_⟩
  · rw [hassoc]
    apply jsTrim_eq_self
    · rw [hdfull]; rfl
    · rw [hdfull, hdv,
        show ('#' :: (' ' :: n.data ++ '\n' :: '-' :: ' ' :: v.data))
          = (('#' :: ' ' :: n.data) ++ ['\n', '-', ' ']) ++ v.data by simp,
        noWsLast_append _ hv.1]
      exact hv.2.2.1
  · rw [hassoc, splitLines_append _ _
        (by rw [hd]; exact not_mem_cons (by decide) (not_mem_cons (by decide) hnl))
        (by rw [hd]; exact not_mem_cons (by decide) (not_mem_cons (by decide) hncr)),
      splitLines_single _
        (by rw [hdv]; exact not_mem_cons (by decide) (not_mem_cons (by decide) hv.2.2.2.1))
        (by rw [hdv]; exact not_mem_cons (by decide) (not_mem_cons (by decide) hv.2.2.2.2.1))]
  · rw [hassoc]
    exact (classify_chunk hdfull).1.trans (by decide)

theorem processChunk_template_fresh (ents : List LGEntity) (files : List String)
    (n v : String) (hn : templateNameOk n) (hv : variationLineOk v) :
    processChunk ⟨[], ents, files⟩ ("# " ++ n ++ "\n- " ++ v) =
      .ok ⟨[⟨n, [v], []⟩], addDetectedEntities ents (parseEntity ("- " ++ v)), files⟩ := by
  obtain ⟨htrim, hsplit, hstart⟩ := template_flat_chunk_facts n v hn hv
  have hname : String.mk (afterFirstSpaceL ("# " ++ n).data) = n := by
    rw [show ("# " ++ n).data = '#' :: ' ' :: n.data by rw [data_append]; rfl,
      afterFirstSpace_hash, mk_data]
  have hbody := processBodyLine_flat ⟨mkLGTemplate n, ents, .nullItem, false, true⟩ v hv rfl
  have hfold : foldBody ⟨mkLGTemplate n, ents, .nullItem, false, true⟩ ["- " ++ v]
      = .ok ⟨⟨n, [v], []⟩, addDetectedEntities ents (parseEntity ("- " ++ v)),
          .nullItem, false, true⟩ := by
    simp only [foldBody, hbody]
    simp [mkLGTemplate]
  unfold processChunk
  simp only [htrim, hsplit, hstart, if_true]
  unfold processIntentChunk
  simp only [List.headD, List.tail, hname, List.length_nil]
  norm_num
  simp only [mkLGTemplate] at hfold ⊢
  simp only [hfold, finishBody]
  simp [string_ne_empty_of_data hn.1]

theorem processChunk_template_merge (ents : List LGEntity) (files : List String)
    (n v : String) (vs : List String) (crs : List LGConditionalResponse)
    (hn : templateNameOk n) (hv : variationLineOk v) :
    processChunk ⟨[⟨n, vs, crs⟩], ents, files⟩ ("# " ++ n ++ "\n- " ++ v) =
      .ok ⟨[⟨n, if vs.contains v then vs else vs ++ [v], crs⟩],
        addDetectedEntities ents (parseEntity ("- " ++ v)), files⟩ := by
  obtain ⟨htrim, hsplit, hstart⟩ := template_flat_chunk_facts n v hn hv
  have hname : String.mk (afterFirstSpaceL ("# " ++ n).data) = n := by
    rw [show ("# " ++ n).data = '#' :: ' ' :: n.data by rw [data_append]; rfl,
      afterFirstSpace_hash, mk_data]
  have hbody := processBodyLine_flat ⟨⟨n, vs, crs⟩, ents, .nullItem, false, false⟩ v hv rfl
  have hfold : foldBody ⟨⟨n, vs, crs⟩, ents, .nullItem, false, false⟩ ["- " ++ v]
      = .ok ⟨⟨n, if vs.contains v then vs else vs ++ [v], crs⟩,
          addDetectedEntities ents (parseEntity ("- " ++ v)), .nullItem, false, false⟩ := by
    simp only [foldBody, hbody]
  have hmerged_ne : ¬((if v ∈ vs then vs else vs ++ [v]) = [] ∧ crs = []) := by
    intro hcon
    by_cases hc : v ∈ vs
    · rw [if_pos hc] at hcon
      rw [hcon.1] at hc
      simp at hc
    · rw [if_neg hc] at hcon
      exact absurd hcon.1 (by simp)
  unfold processChunk
  simp only [htrim, hsplit, hstart, if_true]
  unfold processIntentChunk
  simp only [List.headD, List.tail, hname]
  norm_num
  rw [if_neg (string_ne_empty_of_data hn.1)]
  simp only [hfold, finishBody]
  norm_num
  simp
  exact fun h1 h2 => hmerged_ne ⟨h1, h2⟩


/-- C2: two template chunks with the same name merge into a single Template
holding the union of their variation lines — the second chunk's line is
appended when new, and re-adding an already-present variation string changes
nothing (re-parsing the identical chunk is idempotent for the variation
list). -/
theorem C2_template_merge (n v1 v2 : String) (hn : templateNameOk n)
    (h1 : variationLineOk v1) (h2 : variationLineOk v2) :
    ∃ ents,
      LGObject.toLG (.arr ["# " ++ n ++ "\n- " ++ v1, "# " ++ n ++ "\n- " ++ v2]) =
        .ok ⟨some ⟨[⟨n, if v2 = v1 then [v1] else [v1, v2], []⟩], ents⟩, []⟩ := by
  have hs1 := processChunk_template_fresh [] [] n v1 hn h1
  have hs2 := processChunk_template_merge
    (addDetectedEntities [] (parseEntity ("- " ++ v1))) [] n v2 [v1] [] hn h2
  refine ⟨addDetectedEntities (addDetectedEntities [] (parseEntity ("- " ++ v1)))
    (parseEntity ("- " ++ v2)), ?_⟩
  simp only [LGObject.toLG, foldChunks, hs1, hs2]
  by_cases he : v2 = v1
  · simp [he]
  · simp [he, List.contains]

/-- C2 (witness): parsing `# t / - hi` twice yields one template `t` with the
single variation `hi`; with a second chunk adding `yo` the list is the
union. -/
theorem C2_witness :
    (∃ ents,
      LGObject.toLG (.arr ["# " ++ "t" ++ "\n- " ++ "hi", "# " ++ "t" ++ "\n- " ++ "hi"]) =
        .ok ⟨some ⟨[⟨"t", if "hi" = "hi" then ["hi"] else ["hi", "hi"], []⟩], ents⟩, []⟩) ∧
    (∃ ents,
      LGObject.toLG (.arr ["# " ++ "t" ++ "\n- " ++ "hi", "# " ++ "t" ++ "\n- " ++ "yo"]) =
        .ok ⟨some ⟨[⟨"t", if "yo" = "hi" then ["hi"] else ["hi", "yo"], []⟩], ents⟩, []⟩) :=
  ⟨C2_template_merge "t" "hi" "hi" (by decide) (by decide) (by decide),
   C2_template_merge "t" "hi" "yo" (by decide) (by decide) (by decide)⟩


theorem condLine_facts (c : String) (hc : conditionTextOk c) :
    removeTemplateLinkReferences ("- IF: " ++ c) = "- IF: " ++ c ∧
    jsStartsWith ("- IF: " ++ c) "-" = true ∧
    jsTrim (String.mk (("- IF: " ++ c).data.drop 1))
      = String.mk ('I' :: 'F' :: ':' :: ' ' :: c.data) ∧
    jsTrim (String.mk ('I' :: 'F' :: ':' :: ' ' :: c.data))
      = String.mk ('I' :: 'F' :: ':' :: ' ' :: c.data) ∧
    jsStartsWith (String.mk ('I' :: 'F' :: ':' :: ' ' :: c.data)) CONDITION = true ∧
    jsTrim (jsReplaceFirst (String.mk ('I' :: 'F' :: ':' :: ' ' :: c.data)) CONDITION "") = c ∧
    validateCondition c true = .ok () := by
  obtain ⟨hne, hH, hL, hbr⟩ := hc
  have hd : ("- IF: " ++ c).data = '-' :: ' ' :: 'I' :: 'F' :: ':' :: ' ' :: c.data := by
    rw [data_append]
    rfl
  have hHead : noWsHead ('I' :: 'F' :: ':' :: ' ' :: c.data) = true := rfl
  have hLast : noWsLast ('I' :: 'F' :: ':' :: ' ' :: c.data) = true := by
    rw [show ('I' :: 'F' :: ':' :: ' ' :: c.data) = ['I', 'F', ':', ' '] ++ c.data from rfl,
      noWsLast_append _ hne]
    exact hL
  refine ⟨?_, ?_, ?_, ?_, ?_, ?_, ?_⟩
  · exact removeTemplateLinkReferences_id
      (by rw [hd]
          exact not_mem_cons (by decide) (not_mem_cons (by decide) (not_mem_cons (by decide)
            (not_mem_cons (by decide) (not_mem_cons (by decide)
              (not_mem_cons (by decide) hbr))))))
  · unfold jsStartsWith
    rw [hd]
    rfl
  · rw [hd]
    show jsTrim (String.mk (' ' :: ('I' :: 'F' :: ':' :: ' ' :: c.data)))
      = String.mk ('I' :: 'F' :: ':' :: ' ' :: c.data)
    unfold jsTrim
    rw [show (String.mk (' ' :: ('I' :: 'F' :: ':' :: ' ' :: c.data))).data
        = ' ' :: ('I' :: 'F' :: ':' :: ' ' :: c.data) from rfl,
      jsTrimL_cons_ws (by decide) hHead hLast]
  · unfold jsTrim
    rw [show (String.mk ('I' :: 'F' :: ':' :: ' ' :: c.data)).data
        = 'I' :: 'F' :: ':' :: ' ' :: c.data from rfl,
      jsTrimL_eq_self hHead hLast]
  · rfl
  · show jsTrim (String.mk (jsReplaceFirstL ('I' :: 'F' :: ':' :: ' ' :: c.data)
      (CONDITION).data ("").data)) = c
    rw [show jsReplaceFirstL ('I' :: 'F' :: ':' :: ' ' :: c.data) (CONDITION).data ("").data
        = ' ' :: c.data from rfl]
    unfold jsTrim
    rw [show (String.mk (' ' :: c.data)).data = ' ' :: c.data from rfl,
      jsTrimL_cons_ws (by decide) hH hL, mk_data]
  · unfold validateCondition
    rw [string_beq_empty_false hne]
    rfl

theorem stepCond_first (ents : List LGEntity) (tmpl : LGTemplate) (pae : Bool)
    (c : String) (hc : conditionTextOk c)
    (htmpl : tmpl.conditionalResponses = []) :
    processBodyLine ⟨tmpl, ents, .nullItem, false, pae⟩ ("- IF: " ++ c)
      = .ok ⟨tmpl, addDetectedEntities ents (parseEntity ("- IF: " ++ c)),
          .fresh ⟨c, []⟩, true, true⟩ := by
  obtain ⟨hrm, hsw, hitem, htr, hcnd, hcond, hval⟩ := condLine_facts c hc
  unfold processBodyLine
  simp only [hrm, hsw, hitem, htr, hcnd, Bool.not_true, Bool.false_and, if_false,
    Bool.false_eq_true, ite_false, Bool.and_false]
  simp only [htmpl, List.length_nil, hcond, hval, mkConditionalResponse]
  norm_num

theorem stepVar_fresh (ents : List LGEntity) (tmpl : LGTemplate)
    (b : LGConditionalResponse) (pae : Bool) (v : String) (hv : variationLineOk v) :
    processBodyLine ⟨tmpl, ents, .fresh b, true, pae⟩ ("- " ++ v)
      = .ok ⟨tmpl, addDetectedEntities ents (parseEntity ("- " ++ v)),
          .fresh ⟨b.condition,
            if b.variations.contains v then b.variations else b.variations ++ [v]⟩,
          true, pae⟩ := by
  obtain ⟨hne, hH, hL, hnl, hcr, hbr, hval, hcnd, hdef⟩ := hv
  have hd : ("- " ++ v).data = '-' :: ' ' :: v.data := by
    rw [data_append]
    rfl
  have hrm : removeTemplateLinkReferences ("- " ++ v) = "- " ++ v :=
    removeTemplateLinkReferences_id
      (by rw [hd]
          exact not_mem_cons (by decide) (not_mem_cons (by decide) hbr))
  have hsw1 : jsStartsWith ("- " ++ v) "-" = true := by
    unfold jsStartsWith
    rw [hd]
    rfl
  have hitem : jsTrim (String.mk (("- " ++ v).data.drop 1)) = v := by
    rw [hd]
    show jsTrim (String.mk (' ' :: v.data)) = v
    unfold jsTrim
    rw [show (String.mk (' ' :: v.data)).data = ' ' :: v.data from rfl,
      jsTrimL_cons_ws (by decide) hH hL, mk_data]
  have htrv : jsTrim v = v := jsTrim_eq_self hH hL
  unfold processBodyLine
  simp only [hrm, hsw1, hitem, htrv, hcnd, hdef, hval, Bool.not_true,
    Bool.false_and, Bool.true_and, if_false, Bool.false_eq_true, ite_false]
  simp only [condItemVariations, pushCondVariation]
  by_cases hcont : v ∈ b.variations
  · simp [hcont]
  · simp [hcont]

theorem stepCond_second (ents : List LGEntity) (tmpl : LGTemplate)
    (b : LGConditionalResponse) (c : String) (hc : conditionTextOk c)
    (htmpl : tmpl.conditionalResponses = []) :
    processBodyLine ⟨tmpl, ents, .fresh b, true, true⟩ ("- IF: " ++ c)
      = .ok (if b.condition = c
          then ⟨⟨tmpl.name, tmpl.variations, [b]⟩,
              addDetectedEntities ents (parseEntity ("- IF: " ++ c)),
              .aliasAt 0, true, false⟩
          else ⟨⟨tmpl.name, tmpl.variations, [b]⟩,
              addDetectedEntities ents (parseEntity ("- IF: " ++ c)),
              .fresh ⟨c, []⟩, true, true⟩) := by
  obtain ⟨hrm, hsw, hitem, htr, hcnd, hcond, hval⟩ := condLine_facts c hc
  unfold processBodyLine
  simp only [hrm, hsw, hitem, htr, hcnd, Bool.not_true, Bool.false_and, if_false,
    Bool.false_eq_true, ite_false, Bool.true_and, if_true]
  simp only [flushCond, htmpl, List.length_nil, List.nil_append,
    List.findIdx?, mkConditionalResponse, hval, hcond]
  norm_num
  by_cases he : b.condition = c
  · simp [he]
  · simp [he, string_beq_false he, hval]

theorem stepVar_alias (ents : List LGEntity) (nm : String) (vs : List String)
    (b : LGConditionalResponse) (v : String) (hv : variationLineOk v) :
    processBodyLine ⟨⟨nm, vs, [b]⟩, ents, .aliasAt 0, true, false⟩ ("- " ++ v)
      = .ok ⟨⟨nm, vs, [⟨b.condition,
            if b.variations.contains v then b.variations else b.variations ++ [v]⟩]⟩,
          addDetectedEntities ents (parseEntity ("- " ++ v)),
          .aliasAt 0, true, false⟩ := by
  obtain ⟨hne, hH, hL, hnl, hcr, hbr, hval, hcnd, hdef⟩ := hv
  have hd : ("- " ++ v).data = '-' :: ' ' :: v.data := by
    rw [data_append]
    rfl
  have hrm : removeTemplateLinkReferences ("- " ++ v) = "- " ++ v :=
    removeTemplateLinkReferences_id
      (by rw [hd]
          exact not_mem_cons (by decide) (not_mem_cons (by decide) hbr))
  have hsw1 : jsStartsWith ("- " ++ v) "-" = true := by
    unfold jsStartsWith
    rw [hd]
    rfl
  have hitem : jsTrim (String.mk (("- " ++ v).data.drop 1)) = v := by
    rw [hd]
    show jsTrim (String.mk (' ' :: v.data)) = v
    unfold jsTrim
    rw [show (String.mk (' ' :: v.data)).data = ' ' :: v.data from rfl,
      jsTrimL_cons_ws (by decide) hH hL, mk_data]
  have htrv : jsTrim v = v := jsTrim_eq_self hH hL
  unfold processBodyLine
  simp only [hrm, hsw1, hitem, htrv, hcnd, hdef, hval, Bool.not_true,
    Bool.false_and, Bool.true_and, if_false, Bool.false_eq_true, ite_false]
  simp only [condItemVariations, pushCondVariation, List.get?, Option.getD,
    updateAt]
  by_cases hcont : v ∈ b.variations
  · simp [hcont]
  · simp [hcont]


/-- C3: within one template, two condition lines with identical normalized
condition text merge into a single ConditionalResponseBlock whose variation
list concatenates both occurrences' variation lines with duplicates
suppressed, while two condition lines with different text produce two separate
blocks in encounter order. -/
theorem C3_condition_merge (c1 c2 v1 v2 : String)
    (hc1 : conditionTextOk c1) (hc2 : conditionTextOk c2)
    (h1 : variationLineOk v1) (h2 : variationLineOk v2) :
    (foldBody ⟨mkLGTemplate "t", [], .nullItem, false, true⟩
        ["- IF: " ++ c1, "- " ++ v1, "- IF: " ++ c2, "- " ++ v2]).map finishBody
      = .ok ⟨"t", [],
          if c2 = c1 then [⟨c1, if v2 = v1 then [v1] else [v1, v2]⟩]
          else [⟨c1, [v1]⟩, ⟨c2, [v2]⟩]⟩ := by
  have hs1 := stepCond_first [] (mkLGTemplate "t") true c1 hc1 rfl
  have hs2 := stepVar_fresh (addDetectedEntities [] (parseEntity ("- IF: " ++ c1)))
    (mkLGTemplate "t") ⟨c1, []⟩ true v1 h1
  simp only [show (⟨c1, []⟩ : LGConditionalResponse).condition = c1 from rfl,
    show (⟨c1, []⟩ : LGConditionalResponse).variations = [] from rfl,
    show (([] : List String).contains v1) = false from rfl, Bool.false_eq_true,
    if_false, List.nil_append] at hs2
  have hs3 := stepCond_second
    (addDetectedEntities (addDetectedEntities [] (parseEntity ("- IF: " ++ c1)))
      (parseEntity ("- " ++ v1)))
    (mkLGTemplate "t") ⟨c1, [v1]⟩ c2 hc2 rfl
  simp only [show (⟨c1, [v1]⟩ : LGConditionalResponse).condition = c1 from rfl,
    show (mkLGTemplate "t").name = "t" from rfl,
    show (mkLGTemplate "t").variations = ([] : List String) from rfl] at hs3
  by_cases he : c2 = c1
  · subst he
    rw [if_pos rfl] at hs3
    have hs4 := stepVar_alias
      (addDetectedEntities (addDetectedEntities
          (addDetectedEntities [] (parseEntity ("- IF: " ++ c2)))
        (parseEntity ("- " ++ v1))) (parseEntity ("- IF: " ++ c2)))
      "t" [] ⟨c2, [v1]⟩ v2 h2
    simp only [show (⟨c2, [v1]⟩ : LGConditionalResponse).condition = c2 from rfl,
      show (⟨c2, [v1]⟩ : LGConditionalResponse).variations = [v1] from rfl] at hs4
    simp only [foldBody, hs1, hs2, hs3, hs4, Except.map, finishBody]
    norm_num
  · rw [if_neg (fun hx => he hx.symm)] at hs3
    have hs4 := stepVar_fresh
      (addDetectedEntities (addDetectedEntities
          (addDetectedEntities [] (parseEntity ("- IF: " ++ c1)))
        (parseEntity ("- " ++ v1))) (parseEntity ("- IF: " ++ c2)))
      ⟨"t", [], [⟨c1, [v1]⟩]⟩ ⟨c2, []⟩ true v2 h2
    simp only [show (⟨c2, []⟩ : LGConditionalResponse).condition = c2 from rfl,
      show (⟨c2, []⟩ : LGConditionalResponse).variations = ([] : List String) from rfl,
      show (([] : List String).contains v2) = false from rfl, Bool.false_eq_true,
      if_false, List.nil_append] at hs4
    simp only [foldBody, hs1, hs2, hs3, hs4, Except.map, finishBody]
    norm_num
    simp [he, flushCond]


/-- C3 (witness): `IF: x / a / IF: y / b` produces the two blocks in encounter
order (`x` then `y`), each with its own variation. -/
theorem C3_witness :
    (foldBody ⟨mkLGTemplate "t", [], .nullItem, false, true⟩
        ["- IF: " ++ "x", "- " ++ "a", "- IF: " ++ "y", "- " ++ "b"]).map finishBody
      = .ok ⟨"t", [],
          if "y" = "x" then [⟨"x", if "b" = "a" then ["a"] else ["a", "b"]⟩]
          else [⟨"x", ["a"]⟩, ⟨"y", ["b"]⟩]⟩ :=
  C3_condition_merge "x" "y" "a" "b" (by decide) (by decide) (by decide) (by decide)

end MSLG
